import Mathlib

/-!
Verification development for the NRSE privacy services
(`k_anonymity_service.py` and `differential_privacy_service.py`).

Python scalar values are embedded as `Value` (null, number, string), with
numbers modelled as rationals.  Records (Python dicts) are association
lists from field names to values; dictionary lookup takes the first
binding.  Functions that can raise a Python exception are embedded with
`Except String`; functions that merely return an "error dictionary" keep
that outcome in their ordinary return value, mirroring the source.
Random noise draws are passed in explicitly as realized draws: a
mechanism receives the unit-scale draw `u` and multiplies it by the scale
it computes, so every theorem quantifies over all realized noise.
The transcendental factor `sqrt (2 * ln (1.25 / delta))` of the Gaussian
sigma is abstracted as an explicit function parameter `C` so that all
definitions stay executable; no claim depends on its value.
-/

/-- A Python scalar value: `None`, a number (int/float as a rational), or a string. -/
inductive Value where
  | VNone : Value
  | VNum : ℚ → Value
  | VStr : String → Value
  deriving DecidableEq

open Value

/-- A record, i.e. a Python dict from field names to scalar values. -/
abbrev Record := List (String × Value)

/-- Dictionary lookup: the first binding of the key, if any. -/
def alookup {α : Type} : List (String × α) → String → Option α
  | [], _ => none
  | (k, v) :: t, key => if k = key then some v else alookup t key

/-- Dictionary assignment `d[k] = v`: replace the first binding, or append. -/
def aset {α : Type} : List (String × α) → String → α → List (String × α)
  | [], key, v => [(key, v)]
  | (k, w) :: t, key, v => if k = key then (key, v) :: t else (k, w) :: aset t key v

/-- Digits of a numeral string folded into a natural number. -/
def digitsToNat (cs : List Char) : ℕ :=
  cs.foldl (fun a c => a * 10 + (c.toNat - 48)) 0

/-- Parse a decimal literal the way Python `float(...)` parses plain
decimals: optional surrounding whitespace, optional sign, digits with at
most one decimal point and at least one digit.  Exponent, `inf` and `nan`
forms are not modelled. -/
def parseDec (s : String) : Option ℚ :=
  let cs := s.trim.toList
  let (sgn, cs) : ℚ × List Char :=
    match cs with
    | '-' :: t => (-1, t)
    | '+' :: t => (1, t)
    | _ => (1, cs)
  let ds := cs.takeWhile Char.isDigit
  let rest := cs.dropWhile Char.isDigit
  match rest with
  | [] => if ds = [] then none else some (sgn * (digitsToNat ds : ℚ))
  | '.' :: r2 =>
      let fs := r2.takeWhile Char.isDigit
      if r2.dropWhile Char.isDigit ≠ [] then none
      else if ds = [] ∧ fs = [] then none
      else some (sgn * (digitsToNat (ds ++ fs) : ℚ) / (10 : ℚ) ^ fs.length)
  | _ => none

/-- Python `float(value)` as a partial function: numbers pass through,
strings are parsed, everything else fails. -/
def pyFloat : Value → Option ℚ
  | VNum q => some q
  | VStr s => parseDec s
  | VNone => none

/-- Python `float(value)` as a raising conversion (`TypeError`/`ValueError`). -/
def pyFloatExc : Value → Except String ℚ
  | VNum q => .ok q
  | VStr s =>
      match parseDec s with
      | some q => .ok q
      | none => .error "ValueError: could not convert string to float"
  | VNone => .error "TypeError: float argument must be a string or a number"

/-- Python `str(value)`.  Strings are verbatim and `None` prints as `None`;
number rendering is an injective stand-in for Python numeral repr
(integers print exactly as in Python). -/
def pyStr : Value → String
  | VNone => "None"
  | VStr s => s
  | VNum q => if q.den = 1 then toString q.num else toString q.num ++ "/" ++ toString q.den

/-- Floor of a rational as an integer division (kept executable). -/
def ratFloor (q : ℚ) : ℤ := q.num / q.den

theorem ratFloor_eq_floor (q : ℚ) : ratFloor q = ⌊q⌋ := by
  rw [ratFloor, Rat.floor_def]

/-- Python `round(x)`: round half to even, returning an integer. -/
def pyRound (q : ℚ) : ℤ :=
  if q - ratFloor q < 1 / 2 then ratFloor q
  else if 1 / 2 < q - ratFloor q then ratFloor q + 1
  else if ratFloor q % 2 = 0 then ratFloor q else ratFloor q + 1

/-- Python `int(x)`: truncation toward zero. -/
def truncQ (q : ℚ) : ℤ := if 0 ≤ q then ratFloor q else -ratFloor (-q)

/-- Python `round(x, 4)` over rationals. -/
def roundTo4 (q : ℚ) : ℚ := (pyRound (q * 10000) : ℚ) / 10000

/-- Minimum of a list of naturals (`min` over a nonempty list; 0 for `[]`). -/
def minList : List ℕ → ℕ
  | [] => 0
  | [x] => x
  | x :: y :: t => min x (minList (y :: t))

/-- Maximum of a list of naturals (0 for `[]`). -/
def maxList : List ℕ → ℕ
  | [] => 0
  | x :: t => t.foldl max x

/-- Sum of a list of naturals. -/
def sumList : List ℕ → ℕ
  | [] => 0
  | x :: t => x + sumList t

/-- Minimum of a nonempty list of rationals (0 for `[]`, never used there). -/
def minQ : List ℚ → ℚ
  | [] => 0
  | x :: t => t.foldl min x

/-- Maximum of a nonempty list of rationals (0 for `[]`, never used there). -/
def maxQ : List ℚ → ℚ
  | [] => 0
  | x :: t => t.foldl max x

/-- Effectful map over a list in the `Except` monad, stopping at the first
error (a Python comprehension that may raise). -/
def mapExcept {α β : Type} (f : α → Except String β) : List α → Except String (List β)
  | [] => .ok []
  | x :: t =>
      match f x with
      | .error e => .error e
      | .ok y =>
          match mapExcept f t with
          | .error e => .error e
          | .ok ys => .ok (y :: ys)

/-- Map over a list in the `Option` monad (`none` as soon as one element fails). -/
def mapOption {α β : Type} (f : α → Option β) : List α → Option (List β)
  | [] => some []
  | x :: t =>
      match f x, mapOption f t with
      | some y, some ys => some (y :: ys)
      | _, _ => none

theorem minList_le : ∀ (l : List ℕ) (x : ℕ), x ∈ l → minList l ≤ x := by
  intro l
  induction l with
  | nil => intro x hx; cases hx
  | cons a t ih =>
      intro x hx
      rcases List.mem_cons.mp hx with h | h
      · subst h
        cases t with
        | nil => simp [minList]
        | cons b t2 => exact min_le_left _ _
      · cases t with
        | nil => cases h
        | cons b t2 => exact le_trans (min_le_right _ _) (ih x h)

theorem alookup_mem {α : Type} : ∀ (l : List (String × α)) (k : String) (v : α),
    alookup l k = some v → (k, v) ∈ l := by
  intro l
  induction l with
  | nil => intro k v h; simp [alookup] at h
  | cons p t ih =>
      intro k v h
      obtain ⟨a, b⟩ := p
      by_cases hk : a = k
      · simp [alookup, hk] at h
        subst hk
        subst h
        exact List.mem_cons_self _ _
      · simp [alookup, hk] at h
        exact List.mem_cons_of_mem _ (ih k v h)

theorem alookup_aset {α : Type} : ∀ (l : List (String × α)) (k : String) (v : α),
    alookup (aset l k v) k = some v := by
  intro l
  induction l with
  | nil => intro k v; simp [aset, alookup]
  | cons p t ih =>
      intro k v
      obtain ⟨a, b⟩ := p
      by_cases hk : a = k
      · simp [aset, alookup, hk]
      · simp [aset, alookup, hk]
        exact ih k v

/-! ## Generalization taxonomy (`k_anonymity_service.py`) -/

/-- Python truthiness test `not value` for scalars: `None`, `0` and `""` are falsy. -/
def pyFalsy : Value → Bool
  | VNone => true
  | VNum q => q == 0
  | VStr s => s == ""

/-- A numeric bin: lower bound, optional upper bound (`none` is infinity), label. -/
abbrev Bin := ℚ × Option ℚ × String

/-- The fine-grained (level 1) revenue bins. -/
def revBins1 : List Bin :=
  [(0, some 1, "1亿以下"), (1, some 5, "1-5亿"), (5, some 10, "5-10亿"),
   (10, some 50, "10-50亿"), (50, some 100, "50-100亿"), (100, some 500, "100-500亿"),
   (500, none, "500亿以上")]

/-- The medium (level 2) revenue bins. -/
def revBins2 : List Bin :=
  [(0, some 10, "10亿以下"), (10, some 50, "10-50亿"), (50, some 100, "50-100亿"),
   (100, none, "100亿以上")]

/-- The coarse (level 3 and default) revenue bins. -/
def revBins3 : List Bin :=
  [(0, some 50, "50亿以下"), (50, some 100, "50-100亿"), (100, none, "100亿以上")]

/-- The bin-search loop of `generalize_revenue`: first bin with
`lo <= x < hi` (upper bound absent on the last bin). -/
def findBin (x : ℚ) : List Bin → Option String
  | [] => none
  | (lo, hi, lab) :: t =>
      if lo ≤ x then
        match hi with
        | some h => if x < h then some lab else findBin x t
        | none => some lab
      else findBin x t

/-- `generalize_revenue` on an already-converted number. -/
def genRevQ (x : ℚ) (level : ℕ) : String :=
  let bins := if level = 1 then revBins1 else if level = 2 then revBins2 else revBins3
  match findBin x bins with
  | some lab => lab
  | none => "未知"

/-- `generalize_revenue(revenue, level)`: `None` and unparseable inputs give
the sentinel; otherwise the value is binned by level. -/
def generalize_revenue (revenue : Value) (level : ℕ) : String :=
  match revenue with
  | VNone => "未知"
  | v =>
      match pyFloat v with
      | some q => genRevQ q level
      | none => "未知"

/-- `generalize_market_share` on a number (the nested comparisons of the source). -/
def genMSQ (x : ℚ) (level : ℕ) : String :=
  if level = 1 then
    if x < 1 then "1%以下"
    else if x < 5 then "1-5%"
    else if x < 10 then "5-10%"
    else if x < 20 then "10-20%"
    else if x < 50 then "20-50%"
    else "50%以上"
  else if level = 2 then
    if x < 5 then "5%以下"
    else if x < 20 then "5-20%"
    else if x < 50 then "20-50%"
    else "50%以上"
  else
    if x < 10 then "10%以下"
    else if x < 50 then "10-50%"
    else "50%以上"

/-- `generalize_market_share(share, level)`.  There is no float conversion in
the source: a string input reaches `share < 1` and raises `TypeError`. -/
def generalize_market_share (share : Value) (level : ℕ) : Except String String :=
  match share with
  | VNone => .ok "未知"
  | VNum q => .ok (genMSQ q level)
  | VStr _ => .error "TypeError: unsupported comparison between str and int"

/-- `generalize_rd_ratio` on a number (the nested comparisons of the source). -/
def genRDQ (x : ℚ) (level : ℕ) : String :=
  if level = 1 then
    if x < 5 then "低投入(5%以下)"
    else if x < 10 then "中等投入(5-10%)"
    else if x < 15 then "较高投入(10-15%)"
    else "高投入(15%以上)"
  else if level = 2 then
    if x < 10 then "中低投入(10%以下)" else "中高投入(10%以上)"
  else
    if x < 15 then "一般投入" else "高投入"

/-- `generalize_rd_ratio(ratio, level)`.  Like market share, a string input
raises `TypeError` because the source compares without converting. -/
def generalize_rd_ratio (ratio : Value) (level : ℕ) : Except String String :=
  match ratio with
  | VNone => .ok "未知"
  | VNum q => .ok (genRDQ q level)
  | VStr _ => .error "TypeError: unsupported comparison between str and int"

/-- Does `needle` occur at the start of `hay`? (helper for substring tests). -/
def startsWithL : List Char → List Char → Bool
  | _, [] => true
  | [], _ :: _ => false
  | a :: as, b :: bs => a == b && startsWithL as bs

/-- Does `needle` occur anywhere in `hay`? (Python `needle in hay` on strings). -/
def containsL : List Char → List Char → Bool
  | [], needle => needle.isEmpty
  | a :: t, needle => startsWithL (a :: t) needle || containsL t needle

/-- Python substring test `needle in hay`. -/
def strContains (hay needle : String) : Bool := containsL hay.toList needle.toList

/-- `self.chain_hierarchy`: industry-chain categories and their sub-stages. -/
def chain_hierarchy : List (String × List String) :=
  [("上游", ["上游-原材料", "上游-设备", "上游-零部件"]),
   ("中游", ["中游-制造", "中游-封装", "中游-组装"]),
   ("下游", ["下游-应用", "下游-销售", "下游-服务"])]

/-- The level-2 branch of `generalize_chain_stage` on a string. -/
def chainStageL2 (s : String) : String :=
  match chain_hierarchy.find? (fun cat => cat.2.any (fun st => strContains s st)) with
  | some cat => cat.1
  | none =>
      if strContains s "上游" then "上游"
      else if strContains s "中游" then "中游"
      else if strContains s "下游" then "下游"
      else s

/-- `generalize_chain_stage(stage, level)`.  Level 1 returns the value
verbatim; level 2 climbs the hierarchy (substring tests raise `TypeError`
on a non-string); any other level is the constant coarse label. -/
def generalize_chain_stage (stage : Value) (level : ℕ) : Except String Value :=
  if pyFalsy stage then .ok (VStr "未知")
  else if level = 1 then .ok stage
  else if level = 2 then
    match stage with
    | VStr s => .ok (VStr (chainStageL2 s))
    | _ => .error "TypeError: argument is not iterable"
  else .ok (VStr "产业链企业")

/-- `self.region_hierarchy`: macro-regions and their provinces. -/
def region_hierarchy : List (String × List String) :=
  [("华北", ["北京市", "天津市", "河北省", "山西省", "内蒙古自治区"]),
   ("华东", ["上海市", "江苏省", "浙江省", "安徽省", "福建省", "江西省", "山东省"]),
   ("华南", ["广东省", "广西壮族自治区", "海南省"]),
   ("华中", ["河南省", "湖北省", "湖南省"]),
   ("西南", ["重庆市", "四川省", "贵州省", "云南省", "西藏自治区"]),
   ("西北", ["陕西省", "甘肃省", "青海省", "宁夏回族自治区", "新疆维吾尔自治区"]),
   ("东北", ["辽宁省", "吉林省", "黑龙江省"])]

/-- `_build_city_mapping`: city to province lookup table. -/
def city_mapping : List (String × String) :=
  [("北京", "北京市"), ("上海", "上海市"), ("天津", "天津市"), ("重庆", "重庆市"),
   ("苏州", "江苏省"), ("南京", "江苏省"), ("无锡", "江苏省"), ("常州", "江苏省"),
   ("南通", "江苏省"), ("徐州", "江苏省"), ("扬州", "江苏省"), ("盐城", "江苏省"),
   ("深圳", "广东省"), ("广州", "广东省"), ("东莞", "广东省"), ("佛山", "广东省"),
   ("惠州", "广东省"), ("珠海", "广东省"),
   ("杭州", "浙江省"), ("宁波", "浙江省"), ("温州", "浙江省"), ("嘉兴", "浙江省"),
   ("绍兴", "浙江省"),
   ("合肥", "安徽省"), ("芜湖", "安徽省"), ("滁州", "安徽省"),
   ("成都", "四川省"), ("宜宾", "四川省"), ("绵阳", "四川省"),
   ("西安", "陕西省"), ("咸阳", "陕西省"),
   ("长沙", "湖南省"), ("株洲", "湖南省"),
   ("武汉", "湖北省"), ("宜昌", "湖北省"),
   ("宁德", "福建省"), ("福州", "福建省"), ("厦门", "福建省"),
   ("青岛", "山东省"), ("济南", "山东省"), ("烟台", "山东省"),
   ("宜春", "江西省"), ("南昌", "江西省"), ("赣州", "江西省"),
   ("郑州", "河南省"), ("石家庄", "河北省"), ("太原", "山西省"),
   ("沈阳", "辽宁省"), ("大连", "辽宁省"), ("长春", "吉林省"), ("哈尔滨", "黑龙江省"),
   ("贵阳", "贵州省"), ("昆明", "云南省"), ("兰州", "甘肃省"), ("银川", "宁夏回族自治区"),
   ("乌鲁木齐", "新疆维吾尔自治区"), ("呼和浩特", "内蒙古自治区")]

/-- The level-3 region step of `generalize_headquarters`: the macro-region
containing the province, or the catch-all root. -/
def regionOfProv (prov : String) : String :=
  match region_hierarchy.find? (fun r => r.2.contains prov) with
  | some r => r.1
  | none => "中国"

/-- `generalize_headquarters(location, level)`.  A non-falsy non-string
raises (`.strip()` on a number); unmapped cities degrade to a generic
region; level 4 and beyond returns the final sentinel of the source. -/
def generalize_headquarters (location : Value) (level : ℕ) : Except String String :=
  if pyFalsy location then .ok "未知"
  else
    match location with
    | VStr s =>
        let city := s.trim
        if level = 1 then .ok city
        else
          match alookup city_mapping city with
          | none => .ok "其他地区"
          | some prov =>
              if level = 2 then .ok prov
              else if level = 3 then .ok (regionOfProv prov)
              else .ok "未知"
    | _ => .error "AttributeError: value has no attribute strip"

/-- `generalize_sensitivity_level(level, generalize_level)`. -/
def generalize_sensitivity_level (level : Value) (glevel : ℕ) : Value :=
  if pyFalsy level then VStr "未知"
  else if glevel = 1 then level
  else if level = VStr "高" ∨ level = VStr "较高" then VStr "高敏感"
  else VStr "低敏感"

/-- `suppress_enterprise_info(value)`: constant suppression sentinel. -/
def suppress_enterprise_info (_v : Value) : Value := VStr "*"

/-- First half of the string kept, second half masked (the level-2 default
branch of `apply_generalization`). -/
def maskHalf (s : String) : String :=
  let n := s.length
  String.mk (s.toList.take (n / 2) ++ List.replicate (n - n / 2) '*')

/-- The default branch of `apply_generalization` for fields without a
dedicated routine: only strings longer than 3 characters are truncated or
suppressed; everything else is left unchanged. -/
def defaultGeneralize (v : Value) (level : ℕ) : Value :=
  match v with
  | VStr s =>
      if 3 < s.length then
        if level = 1 then VStr s
        else if level = 2 then VStr (maskHalf s)
        else VStr "*"
      else VStr s
  | w => w

/-! ## K-anonymity pipeline -/

/-- The per-field dispatch of `apply_generalization`: field name selects the
generalization routine, any other field takes the default string branch. -/
def genDispatch (field : String) (v : Value) (level : ℕ) : Except String Value :=
  if field = "revenue_2023" then .ok (VStr (generalize_revenue v level))
  else if field = "domestic_market_share" then (generalize_market_share v level).map VStr
  else if field = "r_and_d_ratio" then (generalize_rd_ratio v level).map VStr
  else if field = "chain_stage" then generalize_chain_stage v level
  else if field = "headquarters" then (generalize_headquarters v level).map VStr
  else if field = "sensitivity_level" then .ok (generalize_sensitivity_level v level)
  else .ok (defaultGeneralize v level)

/-- The field loop of `apply_generalization`: values are read from the
original record, written into the accumulating copy; missing fields are
skipped, the level defaults to 1. -/
def applyGenGo (record : Record) (levels : List (String × ℕ)) :
    List String → Record → Except String Record
  | [], acc => .ok acc
  | field :: rest, acc =>
      match alookup record field with
      | none => applyGenGo record levels rest acc
      | some v =>
          match genDispatch field v ((alookup levels field).getD 1) with
          | .error e => .error e
          | .ok nv => applyGenGo record levels rest (aset acc field nv)

/-- `apply_generalization(record, quasi_identifiers, generalization_levels)`. -/
def apply_generalization (record : Record) (qis : List String)
    (levels : List (String × ℕ)) : Except String Record :=
  applyGenGo record levels qis record

/-- The grouping key of a record: stringified quasi-identifier values in
field order, `""` for a missing field. -/
def recordKey (r : Record) (qis : List String) : List String :=
  qis.map (fun qi => match alookup r qi with | some v => pyStr v | none => "")

/-- Append a record to the equivalence class of its key (keeping first-seen
class order and insertion order inside a class, like a `defaultdict`). -/
def insClass : List (List String × List Record) → List String → Record →
    List (List String × List Record)
  | [], key, r => [(key, [r])]
  | (k, rs) :: t, key, r =>
      if k = key then (k, rs ++ [r]) :: t else (k, rs) :: insClass t key r

/-- `build_equivalence_classes(data, quasi_identifiers)`. -/
def build_equivalence_classes (data : List Record) (qis : List String) :
    List (List String × List Record) :=
  data.foldl (fun acc r => insClass acc (recordKey r qis) r) []

/-- `validate_k_anonymity(equivalence_classes)`: is the partition k-anonymous,
what is the smallest class, how many classes are below k. -/
def validate_k_anonymity (k : ℕ) (eqc : List (List String × List Record)) :
    Bool × ℕ × ℕ :=
  if eqc.isEmpty then (false, 0, 0)
  else
    let sizes := eqc.map (fun c => c.2.length)
    let m := minList sizes
    (decide (k ≤ m), m, (sizes.filter (fun s => s < k)).length)

/-- Generalization-level escalation `{k: min(v + 1, 3)}`. -/
def bumpLevels (levels : List (String × ℕ)) : List (String × ℕ) :=
  levels.map (fun p => (p.1, min (p.2 + 1) 3))

/-- Suppress every present quasi-identifier of a record to the sentinel. -/
def suppressQIs (r : Record) (qis : List String) : Record :=
  qis.foldl (fun acc qi =>
    match alookup acc qi with
    | some v => aset acc qi (suppress_enterprise_info v)
    | none => acc) r

/-- `handle_small_classes(data, equivalence_classes, quasi_identifiers,
generalization_levels)`: conforming classes are kept; a pooled violating
set of size at least k is re-generalized at bumped levels, a smaller pool
is suppressed outright. -/
def handle_small_classes (k : ℕ) (_data : List Record)
    (eqc : List (List String × List Record)) (qis : List String)
    (levels : List (String × ℕ)) : Except String (List Record) :=
  let valid := eqc.filter (fun c => k ≤ c.2.length)
  let invalid := eqc.filter (fun c => c.2.length < k)
  let result := valid.foldl (fun a c => a ++ c.2) []
  let invalidRecords := invalid.foldl (fun a c => a ++ c.2) []
  if invalidRecords.isEmpty then .ok result
  else if k ≤ invalidRecords.length then
    match mapExcept (fun r => apply_generalization r qis (bumpLevels levels)) invalidRecords with
    | .error e => .error e
    | .ok reGen => .ok (result ++ reGen)
  else .ok (result ++ invalidRecords.map (fun r => suppressQIs r qis))

/-- The `while iteration < max_iterations` loop of `anonymize`, with the
remaining iteration budget as fuel and the current iteration count. -/
def anonLoop (k : ℕ) (qis : List String) :
    ℕ → ℕ → List Record → List (String × ℕ) →
    Except String (List Record × List (String × ℕ) × ℕ)
  | 0, iter, dataCur, levels => .ok (dataCur, levels, iter)
  | fuel + 1, iter, dataCur, levels =>
      match mapExcept (fun r => apply_generalization r qis levels) dataCur with
      | .error e => .error e
      | .ok cur =>
          let eqc := build_equivalence_classes cur qis
          if (validate_k_anonymity k eqc).1 then .ok (cur, levels, iter)
          else
            match handle_small_classes k cur eqc qis levels with
            | .error e => .error e
            | .ok nxt => anonLoop k qis fuel (iter + 1) nxt (bumpLevels levels)

/-- The statistics dictionary returned by `anonymize`. -/
structure AnonStats where
  original_records : ℕ
  anonymized_records : ℕ
  equivalence_classes : ℕ
  min_class_size : ℕ
  max_class_size : ℕ
  avg_class_size : ℚ
  k_value : ℕ
  is_k_anonymous : Bool
  violated_classes : ℕ
  information_loss : ℚ
  iterations : ℕ
  final_generalization_levels : List (String × ℕ)
  deriving DecidableEq

/-- Second component of the `anonymize` result: either the error dictionary
of the early-return paths or the statistics dictionary. -/
inductive AnonResult where
  | failed : String → AnonResult
  | stats : AnonStats → AnonResult
  deriving DecidableEq

/-- Parse a leading `\d+\.?\d*` numeral of the interval regex, returning
the value and the remaining characters. -/
def parseNumPre (cs : List Char) : Option (ℚ × List Char) :=
  let ds := cs.takeWhile Char.isDigit
  if ds.isEmpty then none
  else
    match cs.dropWhile Char.isDigit with
    | '.' :: r2 =>
        let fs := r2.takeWhile Char.isDigit
        some ((digitsToNat (ds ++ fs) : ℚ) / (10 : ℚ) ^ fs.length, r2.dropWhile Char.isDigit)
    | rest => some ((digitsToNat ds : ℚ), rest)

/-- `_parse_interval_width(val_str)`: width of a leading `low-high` or
`low~high` interval (optionally bracketed), 0 when the prefix does not
match the regex. -/
def _parse_interval_width (s : String) : ℚ :=
  let cs0 := s.toList
  let cs := match cs0 with | '[' :: t => t | _ => cs0
  match parseNumPre cs with
  | none => 0
  | some (lo, r1) =>
      match r1.dropWhile Char.isWhitespace with
      | c :: r2 =>
          if c = '-' ∨ c = '~' then
            match parseNumPre (r2.dropWhile Char.isWhitespace) with
            | some (hi, _) => |hi - lo|
            | none => 0
          else 0
      | [] => 0

/-- The numeric column of a quasi-identifier: non-null present values run
through `float`; `none` when any of them fails to convert (the `except`
branch of `_get_global_ranges`). -/
def columnFloats (data : List Record) (qi : String) : Option (List ℚ) :=
  mapOption pyFloat (data.filterMap (fun row =>
    match alookup row qi with
    | some v => if v = VNone then none else some v
    | none => none))

/-- `max - min` of a column, replaced by 1 when the spread is not positive. -/
def rangeOf (l : List ℚ) : ℚ :=
  if 0 < maxQ l - minQ l then maxQ l - minQ l else 1

/-- `_get_global_ranges(data, quasi_identifiers)`: global value spread of
every numeric quasi-identifier column. -/
def _get_global_ranges (data : List Record) : List String → List (String × ℚ)
  | [] => []
  | qi :: t =>
      match columnFloats data qi with
      | none => _get_global_ranges data t
      | some [] => _get_global_ranges data t
      | some (v :: vs) => (qi, rangeOf (v :: vs)) :: _get_global_ranges data t

/-- Case D of `compute_information_loss`: proportion of mask stars, 1 when
there are none. -/
def starLoss (a : String) : ℚ :=
  let sc := (a.toList.filter (fun c => c == '*')).length
  if 0 < sc then (sc : ℚ) / (a.length : ℚ) else 1

/-- The fully-suppressed sentinels of Case B. -/
def maskSentinels : List String := ["*", "?", "N/A", "nan", "None", ""]

/-- The per-cell body of `compute_information_loss`. -/
def cellLoss (ranges : List (String × ℚ)) (qi : String) (origV anonV : Value) : ℚ :=
  if pyStr origV = pyStr anonV then 0
  else if pyStr anonV ∈ maskSentinels then 1
  else
    match alookup ranges qi with
    | some rng =>
        if 0 < _parse_interval_width (pyStr anonV) then
          min (_parse_interval_width (pyStr anonV) / rng) 1
        else starLoss (pyStr anonV)
    | none => starLoss (pyStr anonV)

/-- The inner loop of `compute_information_loss`: accumulate loss and cell
count over the quasi-identifiers of one record pair. -/
def cellFold (ranges : List (String × ℚ)) (o a : Record) :
    List String → ℚ × ℕ → ℚ × ℕ
  | [], acc => acc
  | qi :: t, acc =>
      match alookup o qi, alookup a qi with
      | some ov, some av =>
          cellFold ranges o a t (acc.1 + cellLoss ranges qi ov av, acc.2 + 1)
      | _, _ => cellFold ranges o a t acc

/-- The outer loop of `compute_information_loss` over zipped record pairs. -/
def rowFold (ranges : List (String × ℚ)) (qis : List String) :
    List (Record × Record) → ℚ × ℕ → ℚ × ℕ
  | [], acc => acc
  | (o, a) :: t, acc => rowFold ranges qis t (cellFold ranges o a qis acc)

/-- Total loss and total cell count of `compute_information_loss`. -/
def infoLossTotals (od ad : List Record) (qis : List String) : ℚ × ℕ :=
  rowFold (_get_global_ranges od qis) qis (od.zip ad) (0, 0)

/-- `compute_information_loss(original_data, anonymized_data,
quasi_identifiers)`: average per-cell loss, 0 without cells. -/
def compute_information_loss (od ad : List Record) (qis : List String) : ℚ :=
  if od.isEmpty ∨ ad.isEmpty then 0
  else if 0 < (infoLossTotals od ad qis).2 then
    (infoLossTotals od ad qis).1 / ((infoLossTotals od ad qis).2 : ℚ)
  else 0

/-- `anonymize(data, quasi_identifiers, sensitive_attributes,
generalization_levels, max_iterations)`: the full KACA-style enforcement
pipeline, returning the anonymized records and the statistics report.
`sensitive_attributes` is accepted and ignored exactly as in the source. -/
def anonymize (k : ℕ) (data : List Record) (qis : List String)
    (_sensitive : List String) (levels0 : List (String × ℕ)) (maxIter : ℕ) :
    Except String (List Record × AnonResult) :=
  match data with
  | [] => .ok ([], .failed "No data provided")
  | r0 :: _ =>
      match qis.find? (fun qi => (alookup r0 qi).isNone) with
      | some qi => .ok ([], .failed ("Quasi-identifier " ++ qi ++ " not found in data"))
      | none =>
          let levels := if levels0.isEmpty then qis.map (fun q => (q, 1)) else levels0
          match anonLoop k qis maxIter 0 data levels with
          | .error e => .error e
          | .ok (finalData, finalLevels, iter) =>
              let finalClasses := build_equivalence_classes finalData qis
              let v := validate_k_anonymity k finalClasses
              let sizes := finalClasses.map (fun c => c.2.length)
              .ok (finalData, .stats {
                original_records := data.length
                anonymized_records := finalData.length
                equivalence_classes := finalClasses.length
                min_class_size := v.2.1
                max_class_size := maxList sizes
                avg_class_size :=
                  if finalClasses.isEmpty then 0
                  else (sumList sizes : ℚ) / (finalClasses.length : ℚ)
                k_value := k
                is_k_anonymous := v.1
                violated_classes := v.2.2
                information_loss := compute_information_loss data finalData qis
                iterations := iter + 1
                final_generalization_levels := finalLevels })

/-! ## Differential privacy service (`differential_privacy_service.py`)

Only the `_compute_statistics` diagnostics dictionary of
`privatize_enterprise_data` is not modelled (it feeds no claim and no
return channel other than the stats dict); the early error dictionary is
kept as an `Option String`. -/

/-- The instance state of `DifferentialPrivacyService`. -/
structure DPService where
  epsilon : ℚ
  delta : ℚ
  field_bounds : List (String × ℚ × ℚ)
  field_sensitivity : List (String × ℚ)
  deriving DecidableEq

/-- `DifferentialPrivacyService.__init__(epsilon, delta)` with the NRSE
default bounds and sensitivities. -/
def mkDPService (epsilon delta : ℚ) : DPService :=
  { epsilon := epsilon
    delta := delta
    field_bounds :=
      [("revenue_2023", (0, 1000)), ("domestic_market_share", (0, 100)),
       ("r_and_d_ratio", (0, 30))]
    field_sensitivity :=
      [("revenue_2023", 1000), ("domestic_market_share", 100), ("r_and_d_ratio", 30)] }

/-- Python `x or default` on an optional number: `None` and `0` both fall
back to the default. -/
def pyOr (x : Option ℚ) (d : ℚ) : ℚ :=
  match x with
  | none => d
  | some v => if v = 0 then d else v

/-- `laplace_mechanism(true_value, sensitivity, epsilon)`: the scale is
`sensitivity / epsilon` (with the `or` fallback) and `u` is the realized
unit-scale Laplace draw. -/
def laplace_mechanism (svc : DPService) (true_value sensitivity : ℚ)
    (epsilon : Option ℚ) (u : ℚ) : ℚ :=
  true_value + sensitivity / pyOr epsilon svc.epsilon * u

/-- `gaussian_mechanism(true_value, sensitivity, epsilon, delta)`: sigma is
`sensitivity * C(delta) / epsilon` where `C` abstracts the transcendental
factor `sqrt (2 * ln (1.25 / delta))`; `u` is the realized unit draw. -/
def gaussian_mechanism (svc : DPService) (true_value sensitivity : ℚ)
    (epsilon delta : Option ℚ) (C : ℚ → ℚ) (u : ℚ) : ℚ :=
  true_value + sensitivity * C (pyOr delta svc.delta) / pyOr epsilon svc.epsilon * u

/-- `add_noise_to_field(value, field_name, mechanism)`: `None` passes
through, an unknown mechanism raises `ValueError`, and the noisy value is
clipped to the declared field bounds when they exist. -/
def add_noise_to_field (svc : DPService) (value : Option ℚ)
    (field_name mechanism : String) (C : ℚ → ℚ) (u : ℚ) : Except String (Option ℚ) :=
  match value with
  | none => .ok none
  | some v =>
      let sensitivity := (alookup svc.field_sensitivity field_name).getD 1
      match (if mechanism = "laplace" then
               Except.ok (laplace_mechanism svc v sensitivity none u)
             else if mechanism = "gaussian" then
               Except.ok (gaussian_mechanism svc v sensitivity none none C u)
             else Except.error ("Unknown mechanism: " ++ mechanism)) with
      | .error e => .error e
      | .ok noisy =>
          match alookup svc.field_bounds field_name with
          | some b => .ok (some (max b.1 (min b.2 noisy)))
          | none => .ok (some noisy)

/-- The `custom_bounds` update of `privatize_enterprise_data`: the bounds
table takes every custom pair and the sensitivity becomes `max - min`. -/
def updateBounds (svc : DPService) (custom : List (String × ℚ × ℚ)) : DPService :=
  { svc with
    field_bounds := custom.foldl (fun b p => aset b p.1 p.2) svc.field_bounds
    field_sensitivity :=
      custom.foldl (fun s p => aset s p.1 (p.2.2 - p.2.1)) svc.field_sensitivity }

/-- The per-record field loop of `privatize_enterprise_data`: values are
read from the original record, converted with `float`, noised and written
into the copy; the counter indexes the realized noise draws. -/
def privFieldsGo (svc : DPService) (r : Record) (mechanism : String)
    (C : ℚ → ℚ) (u : ℕ → ℚ) :
    List String → Record → ℕ → Except String (Record × ℕ)
  | [], acc, n => .ok (acc, n)
  | f :: rest, acc, n =>
      match alookup r f with
      | none => privFieldsGo svc r mechanism C u rest acc n
      | some VNone => privFieldsGo svc r mechanism C u rest acc n
      | some v =>
          match pyFloatExc v with
          | .error e => .error e
          | .ok ov =>
              match add_noise_to_field svc (some ov) f mechanism C (u n) with
              | .error e => .error e
              | .ok nv =>
                  privFieldsGo svc r mechanism C u rest
                    (aset acc f (match nv with | some q => VNum q | none => VNone)) (n + 1)

/-- The record loop of `privatize_enterprise_data`. -/
def privLoop (svc : DPService) (fields : List String) (mechanism : String)
    (C : ℚ → ℚ) (u : ℕ → ℚ) :
    List Record → ℕ → Except String (List Record × ℕ)
  | [], n => .ok ([], n)
  | r :: rs, n =>
      match privFieldsGo svc r mechanism C u fields r n with
      | .error e => .error e
      | .ok (r2, n2) =>
          match privLoop svc fields mechanism C u rs n2 with
          | .error e => .error e
          | .ok (rest, n3) => .ok (r2 :: rest, n3)

/-- `privatize_enterprise_data(data, numeric_fields, mechanism,
custom_bounds)`: the returned service value is the (possibly mutated)
instance state after the call; the `Option String` is the early error
dictionary of the empty-data path. -/
def privatize_enterprise_data (svc : DPService) (data : List Record)
    (numeric_fields : List String) (mechanism : String)
    (custom : List (String × ℚ × ℚ)) (C : ℚ → ℚ) (u : ℕ → ℚ) :
    DPService × Except String (List Record × Option String) :=
  if data.isEmpty then (svc, .ok ([], some "No data provided"))
  else
    let svc2 := if custom.isEmpty then svc else updateBounds svc custom
    match privLoop svc2 numeric_fields mechanism C u data 0 with
    | .error e => (svc2, .error e)
    | .ok (recs, _) => (svc2, .ok (recs, none))

/-- Equality filtering over `filter_condition` (`None`/`{}` filter nothing;
a missing field compares as `None`). -/
def applyFilter (data : List Record) (filt : List (String × Value)) : List Record :=
  if filt.isEmpty then data
  else data.filter (fun r => filt.all (fun kv => decide ((alookup r kv.1).getD VNone = kv.2)))

/-- The `if mechanism == 'laplace' ... else gaussian` dispatch repeated in
every statistical query of the source (with the instance-default budget). -/
def mechNoise (svc : DPService) (mechanism : String) (C : ℚ → ℚ)
    (value sensitivity u : ℚ) : ℚ :=
  if mechanism = "laplace" then laplace_mechanism svc value sensitivity none u
  else gaussian_mechanism svc value sensitivity none none C u

/-- The query diagnostics of `query_count` (the constant `query_type` label
is omitted). -/
structure CountInfo where
  true_count : ℕ
  noisy_count : ℤ
  noise : ℤ
  mechanism : String
  epsilon : ℚ
  deriving DecidableEq

/-- `query_count(data, filter_condition, mechanism)`: note the source sends
every mechanism other than `laplace` to the Gaussian branch. -/
def query_count (svc : DPService) (data : List Record)
    (filt : List (String × Value)) (mechanism : String) (C : ℚ → ℚ) (u : ℚ) :
    ℤ × CountInfo :=
  let filtered := applyFilter data filt
  let trueCount := filtered.length
  let noisy := mechNoise svc mechanism C (trueCount : ℚ) 1 u
  let nc := max 0 (pyRound noisy)
  (nc, { true_count := trueCount, noisy_count := nc, noise := nc - (trueCount : ℤ)
         mechanism := mechanism, epsilon := svc.epsilon })

/-- Sum of a list of rationals. -/
def sumQ : List ℚ → ℚ
  | [] => 0
  | x :: t => x + sumQ t

/-- The present, non-null values of a field across records. -/
def fieldValues (data : List Record) (field : String) : List Value :=
  data.filterMap (fun r =>
    match alookup r field with
    | some v => if v = VNone then none else some v
    | none => none)

/-- Field extraction with `float` conversion, raising on the first
unparseable value exactly like the list comprehensions of the source. -/
def extractFloats (data : List Record) (field : String) : Except String (List ℚ) :=
  mapExcept pyFloatExc (fieldValues data field)

/-- The query diagnostics of `query_sum`. -/
structure SumInfo where
  field : String
  true_sum : ℚ
  noisy_sum : ℚ
  count : ℕ
  mechanism : String
  epsilon : ℚ
  sensitivity : ℚ
  deriving DecidableEq

/-- `query_sum(data, field, filter_condition, mechanism)`; the `(0, none)`
result is the `"No valid data"` dictionary of the source. -/
def query_sum (svc : DPService) (data : List Record) (field : String)
    (filt : List (String × Value)) (mechanism : String) (C : ℚ → ℚ) (u : ℚ) :
    Except String (ℚ × Option SumInfo) :=
  let filtered := applyFilter data filt
  match extractFloats filtered field with
  | .error e => .error e
  | .ok values =>
      if values.isEmpty then .ok (0, none)
      else
        let trueSum := sumQ values
        let sens := (alookup svc.field_sensitivity field).getD (maxQ values - minQ values)
        let noisy := mechNoise svc mechanism C trueSum sens u
        .ok (noisy, some { field := field, true_sum := roundTo4 trueSum
                           noisy_sum := roundTo4 noisy, count := values.length
                           mechanism := mechanism, epsilon := svc.epsilon
                           sensitivity := sens })

/-- The query diagnostics of `query_average`. -/
structure AvgInfo where
  field : String
  true_average : ℚ
  noisy_average : ℚ
  count : ℕ
  mechanism : String
  epsilon : ℚ
  sensitivity : ℚ
  deriving DecidableEq

/-- `query_average(data, field, filter_condition, mechanism)`: mean with
sensitivity `range / n`, noised, then clipped to the declared bounds. -/
def query_average (svc : DPService) (data : List Record) (field : String)
    (filt : List (String × Value)) (mechanism : String) (C : ℚ → ℚ) (u : ℚ) :
    Except String (ℚ × Option AvgInfo) :=
  let filtered := applyFilter data filt
  match extractFloats filtered field with
  | .error e => .error e
  | .ok values =>
      if values.isEmpty then .ok (0, none)
      else
        let trueAvg := sumQ values / (values.length : ℚ)
        let fieldRange := (alookup svc.field_sensitivity field).getD (maxQ values - minQ values)
        let sens := fieldRange / (values.length : ℚ)
        let noisy := mechNoise svc mechanism C trueAvg sens u
        let clipped :=
          match alookup svc.field_bounds field with
          | some b => max b.1 (min b.2 noisy)
          | none => noisy
        .ok (clipped, some { field := field, true_average := roundTo4 trueAvg
                             noisy_average := roundTo4 clipped, count := values.length
                             mechanism := mechanism, epsilon := svc.epsilon
                             sensitivity := sens })

/-- Keep-first deduplication (Python dict/set key semantics). -/
def dedupGo {α : Type} [DecidableEq α] (seen : List α) : List α → List α
  | [] => []
  | x :: t => if x ∈ seen then dedupGo seen t else x :: dedupGo (x :: seen) t

/-- Keep-first deduplication of a list. -/
def dedupFirst {α : Type} [DecidableEq α] (l : List α) : List α := dedupGo [] l

/-- Ordered insertion for the sort below. -/
def insertLe {α : Type} (le : α → α → Bool) (x : α) : List α → List α
  | [] => [x]
  | y :: t => if le x y then x :: y :: t else y :: insertLe le x t

/-- Insertion sort: the embedding of Python `sorted` on a total order. -/
def sortByLe {α : Type} (le : α → α → Bool) : List α → List α
  | [] => []
  | x :: t => insertLe le x (sortByLe le t)

/-- Is the value a number? -/
def isNumV : Value → Bool
  | VNum _ => true
  | _ => false

/-- Is the value a string? -/
def isStrV : Value → Bool
  | VStr _ => true
  | _ => false

/-- Numeric payload (callers guard with `isNumV`). -/
def numOf : Value → ℚ
  | VNum q => q
  | _ => 0

/-- String payload (callers guard with `isStrV`). -/
def strOf : Value → String
  | VStr s => s
  | _ => ""

/-- Python `sorted(set(values))`: deduplicate then sort; mixed
number/string collections raise `TypeError`. -/
def sortedUniqueVals (vs : List Value) : Except String (List Value) :=
  let d := dedupFirst vs
  if d.all isNumV then .ok (sortByLe (fun a b => decide (numOf a ≤ numOf b)) d)
  else if d.all isStrV then .ok (sortByLe (fun a b => decide (strOf a ≤ strOf b)) d)
  else .error "TypeError: unorderable types in sorted()"

/-- The query diagnostics of `query_histogram`. -/
structure HistInfo where
  field : String
  bins : ℕ
  total_count : ℕ
  mechanism : String
  epsilon : ℚ
  deriving DecidableEq

/-- The per-bin noise loop of `query_histogram`: each bin count is noised
with the i-th realized draw, rounded, and floored at zero. -/
def histNoise (svc : DPService) (mechanism : String) (C : ℚ → ℚ) (u : ℕ → ℚ) :
    ℕ → List (Value × ℕ) → List (Value × ℤ)
  | _, [] => []
  | i, (b, c) :: t =>
      (b, max 0 (pyRound (mechNoise svc mechanism C (c : ℚ) 1 (u i)))) ::
        histNoise svc mechanism C u (i + 1) t

/-- `query_histogram(data, field, bins, mechanism)`: explicit bins or the
sorted distinct values, per-bin counts, independently noised. -/
def query_histogram (svc : DPService) (data : List Record) (field : String)
    (bins? : Option (List Value)) (mechanism : String) (C : ℚ → ℚ) (u : ℕ → ℚ) :
    Except String (List (Value × ℤ) × Option HistInfo) :=
  let values := fieldValues data field
  if values.isEmpty then .ok ([], none)
  else
    match (match bins? with
           | some bs => Except.ok bs
           | none => sortedUniqueVals values) with
    | .error e => .error e
    | .ok bins =>
        let binsD := dedupFirst bins
        let trueHist := binsD.map (fun b => (b, (values.filter (fun v => decide (v = b))).length))
        .ok (histNoise svc mechanism C u 0 trueHist,
             some { field := field, bins := bins.length
                    total_count := sumList (trueHist.map (fun p => p.2))
                    mechanism := mechanism, epsilon := svc.epsilon })

/-- Python list indexing, including the negative-index wraparound and the
`IndexError` outside `[-len, len)`. -/
def pyIndex (l : List ℚ) (i : ℤ) : Except String ℚ :=
  if 0 ≤ i then
    match l.get? i.toNat with
    | some x => .ok x
    | none => .error "IndexError: list index out of range"
  else
    let j := i + (l.length : ℤ)
    if 0 ≤ j then
      match l.get? j.toNat with
      | some x => .ok x
      | none => .error "IndexError: list index out of range"
    else .error "IndexError: list index out of range"

/-- The query diagnostics of `query_percentile`. -/
structure PercInfo where
  field : String
  percentiles : List ℚ
  count : ℕ
  mechanism : String
  epsilon : ℚ
  deriving DecidableEq

/-- The per-percentile noise loop of `query_percentile`: noise, clip to the
declared bounds, then round to 4 decimals. -/
def percNoise (svc : DPService) (field mechanism : String) (sens : ℚ)
    (C : ℚ → ℚ) (u : ℕ → ℚ) :
    ℕ → List (ℚ × ℚ) → List (ℚ × ℚ)
  | _, [] => []
  | i, (p, tv) :: t =>
      let clipped :=
        match alookup svc.field_bounds field with
        | some b => max b.1 (min b.2 (mechNoise svc mechanism C tv sens (u i)))
        | none => mechNoise svc mechanism C tv sens (u i)
      (p, roundTo4 clipped) :: percNoise svc field mechanism sens C u (i + 1) t

/-- `query_percentile(data, field, percentiles, mechanism)`: nearest-rank
percentiles of the sorted values, noised, clipped and rounded. -/
def query_percentile (svc : DPService) (data : List Record) (field : String)
    (percentiles : List ℚ) (mechanism : String) (C : ℚ → ℚ) (u : ℕ → ℚ) :
    Except String (List (ℚ × ℚ) × Option PercInfo) :=
  match extractFloats data field with
  | .error e => .error e
  | .ok values =>
      if values.isEmpty then .ok ([], none)
      else
        let sorted := sortByLe (fun a b => decide (a ≤ b)) values
        match mapExcept (fun p =>
          let idx := min (truncQ ((values.length : ℚ) * p / 100)) ((values.length : ℤ) - 1)
          match pyIndex sorted idx with
          | .error e => Except.error e
          | .ok tv => Except.ok (p, tv)) (dedupFirst percentiles) with
        | .error e => .error e
        | .ok truePs =>
            let sens := (alookup svc.field_sensitivity field).getD (maxQ values - minQ values)
            .ok (percNoise svc field mechanism sens C u 0 truePs,
                 some { field := field, percentiles := percentiles
                        count := values.length, mechanism := mechanism
                        epsilon := svc.epsilon })

/-! ## Claim theorems -/

deriving instance DecidableEq for Except

/-- C10: passing an explicit epsilon of 0 (or `None`) to `laplace_mechanism`,
and an explicit epsilon or delta of 0 (or `None`) to `gaussian_mechanism`,
silently falls back to the instance defaults (`or` treats 0 as absent), so
the scale and sigma are always computed from the defaults in those cases and
an explicitly requested zero budget is ignored rather than honored or
rejected. -/
theorem C10_zero_budget_ignored (svc : DPService) (v s u : ℚ) (C : ℚ → ℚ) :
    laplace_mechanism svc v s (some 0) u = laplace_mechanism svc v s none u ∧
    laplace_mechanism svc v s none u = v + s / svc.epsilon * u ∧
    gaussian_mechanism svc v s (some 0) (some 0) C u =
      gaussian_mechanism svc v s none none C u ∧
    gaussian_mechanism svc v s none none C u = v + s * C svc.delta / svc.epsilon * u := by
  refine ⟨?_, rfl, ?_, rfl⟩ <;> simp [laplace_mechanism, gaussian_mechanism, pyOr]

/-- C6: `query_count` always returns a non-negative integer, for every
dataset, filter, mechanism string and realized noise draw: the noisy count
is rounded and clamped below at 0. -/
theorem C6_query_count_nonneg (svc : DPService) (data : List Record)
    (filt : List (String × Value)) (mechanism : String) (C : ℚ → ℚ) (u : ℚ) :
    0 ≤ (query_count svc data filt mechanism C u).1 := by
  simp only [query_count]
  exact le_max_left 0 _

/-- C4 counterexample: `query_count` with the unknown mechanism name
`"foobar"` does not surface any error; it silently takes the Gaussian
branch and returns a noised result (2, while the true count is 1). -/
theorem C4_unknown_mechanism_cex :
    (query_count (mkDPService 1 (1/100000)) [[("a", VNum 1)]] [] "foobar"
        (fun _ => 1) (1/2)).1 = 2 ∧
    (query_count (mkDPService 1 (1/100000)) [[("a", VNum 1)]] [] "foobar"
        (fun _ => 1) (1/2)).2.true_count = 1 := by
  have hm : ("foobar" : String) ≠ "laplace" := by decide
  constructor
  · norm_num [query_count, applyFilter, mechNoise, gaussian_mechanism, pyOr, pyRound,
      ratFloor, mkDPService, hm]
  · rfl

/-- C4 amended: only `add_noise_to_field` (and hence
`privatize_enterprise_data` when it reaches a non-null value) raises the
`Unknown mechanism` error; every statistical query (`query_count`,
`query_sum`, `query_average`, `query_histogram`, `query_percentile`)
treats any mechanism name other than `laplace` as `gaussian` and produces
a noised result with no error. -/
theorem C4_unknown_mechanism_amended :
    (∀ (svc : DPService) (v : ℚ) (f mech : String) (C : ℚ → ℚ) (u : ℚ),
        mech ≠ "laplace" → mech ≠ "gaussian" →
        add_noise_to_field svc (some v) f mech C u =
          .error ("Unknown mechanism: " ++ mech)) ∧
    (∀ (svc : DPService) (data : List Record) (filt : List (String × Value))
        (mech : String) (C : ℚ → ℚ) (u : ℚ), mech ≠ "laplace" →
        (query_count svc data filt mech C u).1 =
          (query_count svc data filt "gaussian" C u).1) ∧
    (∀ (svc : DPService) (data : List Record) (field : String)
        (filt : List (String × Value)) (mech : String) (C : ℚ → ℚ) (u : ℚ),
        mech ≠ "laplace" →
        (query_sum svc data field filt mech C u).map Prod.fst =
          (query_sum svc data field filt "gaussian" C u).map Prod.fst) ∧
    (∀ (svc : DPService) (data : List Record) (field : String)
        (filt : List (String × Value)) (mech : String) (C : ℚ → ℚ) (u : ℚ),
        mech ≠ "laplace" →
        (query_average svc data field filt mech C u).map Prod.fst =
          (query_average svc data field filt "gaussian" C u).map Prod.fst) ∧
    (∀ (svc : DPService) (data : List Record) (field : String)
        (bins? : Option (List Value)) (mech : String) (C : ℚ → ℚ) (u : ℕ → ℚ),
        mech ≠ "laplace" →
        (query_histogram svc data field bins? mech C u).map Prod.fst =
          (query_histogram svc data field bins? "gaussian" C u).map Prod.fst) ∧
    (∀ (svc : DPService) (data : List Record) (field : String)
        (percentiles : List ℚ) (mech : String) (C : ℚ → ℚ) (u : ℕ → ℚ),
        mech ≠ "laplace" →
        (query_percentile svc data field percentiles mech C u).map Prod.fst =
          (query_percentile svc data field percentiles "gaussian" C u).map Prod.fst) := by
  have hg : ("gaussian" : String) ≠ "laplace" := by decide
  have key : ∀ (svc : DPService) (mech : String) (C : ℚ → ℚ), mech ≠ "laplace" →
      mechNoise svc mech C = mechNoise svc "gaussian" C := by
    intro svc mech C hm
    funext v s u
    simp [mechNoise, hm, hg]
  have histN : ∀ (svc : DPService) (mech : String) (C : ℚ → ℚ) (u : ℕ → ℚ),
      mech ≠ "laplace" → ∀ (i : ℕ) (l : List (Value × ℕ)),
      histNoise svc mech C u i l = histNoise svc "gaussian" C u i l := by
    intro svc mech C u hm i l
    induction l generalizing i with
    | nil => rfl
    | cons p t ih => simp [histNoise, key svc mech C hm, ih]
  have percN : ∀ (svc : DPService) (field mech : String) (sens : ℚ) (C : ℚ → ℚ)
      (u : ℕ → ℚ), mech ≠ "laplace" → ∀ (i : ℕ) (l : List (ℚ × ℚ)),
      percNoise svc field mech sens C u i l = percNoise svc field "gaussian" sens C u i l := by
    intro svc field mech sens C u hm i l
    induction l generalizing i with
    | nil => rfl
    | cons p t ih => simp [percNoise, key svc mech C hm, ih]
  refine ⟨?_, ?_, ?_, ?_, ?_, ?_⟩
  · intro svc v f mech C u h1 h2
    simp [add_noise_to_field, h1, h2]
  · intro svc data filt mech C u hm
    simp [query_count, key svc mech C hm]
  · intro svc data field filt mech C u hm
    unfold query_sum
    cases h : extractFloats (applyFilter data filt) field with
    | error e => simp [h]
    | ok values =>
        by_cases hv : values.isEmpty <;>
          simp [h, hv, key svc mech C hm, Except.map]
  · intro svc data field filt mech C u hm
    unfold query_average
    cases h : extractFloats (applyFilter data filt) field with
    | error e => simp [h]
    | ok values =>
        by_cases hv : values.isEmpty <;>
          simp [h, hv, key svc mech C hm, Except.map]
  · intro svc data field bins? mech C u hm
    unfold query_histogram
    by_cases hv : (fieldValues data field).isEmpty
    · simp [hv]
    · simp only [hv, Bool.false_eq_true, if_false]
      cases hb : (match bins? with
                  | some bs => Except.ok bs
                  | none => sortedUniqueVals (fieldValues data field)) with
      | error e => simp [hb]
      | ok bins => simp [hb, histN svc mech C u hm, Except.map]
  · intro svc data field percentiles mech C u hm
    unfold query_percentile
    cases h : extractFloats data field with
    | error e => simp [h]
    | ok values =>
        by_cases hv : values.isEmpty
        · simp [h, hv]
        · simp only [h, hv, Bool.false_eq_true, if_false]
          cases hp : mapExcept (fun p =>
            let idx := min (truncQ ((values.length : ℚ) * p / 100)) ((values.length : ℤ) - 1)
            match pyIndex (sortByLe (fun a b => decide (a ≤ b)) values) idx with
            | .error e => Except.error e
            | .ok tv => Except.ok (p, tv)) (dedupFirst percentiles) with
          | error e => simp [hp]
          | ok truePs => simp [hp, percN svc field mech _ C u hm, Except.map]

/-- C4 amended witness at concrete inputs: `add_noise_to_field` raises for
`"exponential"`, and `query_count` with `"exponential"` equals the Gaussian
result. -/
theorem C4_unknown_mechanism_amended_witness :
    add_noise_to_field (mkDPService 1 (1/100000)) (some 5) "revenue_2023"
        "exponential" (fun _ => 1) 1 = .error "Unknown mechanism: exponential" ∧
    (query_count (mkDPService 1 (1/100000)) [[("a", VNum 1)]] [] "exponential"
        (fun _ => 1) (1/2)).1 =
      (query_count (mkDPService 1 (1/100000)) [[("a", VNum 1)]] [] "gaussian"
        (fun _ => 1) (1/2)).1 :=
  ⟨by
    have h := C4_unknown_mechanism_amended.1 (mkDPService 1 (1/100000)) 5 "revenue_2023"
      "exponential" (fun _ => 1) 1 (by decide) (by decide)
    simpa using h,
   C4_unknown_mechanism_amended.2.1 (mkDPService 1 (1/100000)) [[("a", VNum 1)]] []
      "exponential" (fun _ => 1) (1/2) (by decide)⟩

/-- C3 counterexample: `generalize_market_share` on the non-numeric string
`"abc"` raises `TypeError` instead of returning the unknown sentinel
(there is no `float` conversion guard in its source). -/
theorem C3_market_share_raises_cex :
    generalize_market_share (VStr "abc") 1 =
      .error "TypeError: unsupported comparison between str and int" ∧
    generalize_market_share (VStr "abc") 1 ≠ .ok "未知" := by
  constructor
  · rfl
  · decide

/-- C3 amended: all three numeric generalizers return the sentinel on null
input and `generalize_revenue` also returns it on unparseable input
without raising, but `generalize_market_share` and `generalize_rd_ratio`
raise `TypeError` on every string input instead of returning the
sentinel. -/
theorem C3_null_unparseable_amended (L : ℕ) (s : String) (hs : parseDec s = none) :
    generalize_revenue VNone L = "未知" ∧
    generalize_revenue (VStr s) L = "未知" ∧
    generalize_market_share VNone L = .ok "未知" ∧
    generalize_rd_ratio VNone L = .ok "未知" ∧
    (∀ t : String, generalize_market_share (VStr t) L =
      .error "TypeError: unsupported comparison between str and int") ∧
    (∀ t : String, generalize_rd_ratio (VStr t) L =
      .error "TypeError: unsupported comparison between str and int") := by
  refine ⟨rfl, ?_, rfl, rfl, fun t => rfl, fun t => rfl⟩
  simp [generalize_revenue, pyFloat, hs]

/-- C3 amended witness at level 1 with the unparseable string `"hello"`. -/
theorem C3_null_unparseable_amended_witness :
    generalize_revenue VNone 1 = "未知" ∧
    generalize_revenue (VStr "hello") 1 = "未知" ∧
    generalize_market_share VNone 1 = .ok "未知" ∧
    generalize_rd_ratio VNone 1 = .ok "未知" ∧
    (∀ t : String, generalize_market_share (VStr t) 1 =
      .error "TypeError: unsupported comparison between str and int") ∧
    (∀ t : String, generalize_rd_ratio (VStr t) 1 =
      .error "TypeError: unsupported comparison between str and int") :=
  C3_null_unparseable_amended 1 "hello" (by with_unfolding_all decide)

/-- C8 counterexample: for a generic field, a string of length 3 at
generalization level 3 is returned verbatim instead of being suppressed to
the mask symbol, because the default branch only touches strings longer
than 3 characters. -/
theorem C8_short_string_cex :
    apply_generalization [("nm", VStr "abc")] ["nm"] [("nm", 3)] =
      .ok [("nm", VStr "abc")] ∧
    VStr "abc" ≠ VStr "*" := by
  constructor
  · rfl
  · decide

/-- C8 amended: for a quasi-identifier with no dedicated routine holding a
string value, the claimed behavior (level 2 keeps the first half and masks
the rest, level 3 and above suppresses to a single mask symbol) holds only
for strings longer than 3 characters; strings of length at most 3 are left
verbatim at every level. -/
theorem C8_generic_string_amended (f s : String) (rec : Record) (L : ℕ)
    (hf : f ∉ ["revenue_2023", "domestic_market_share", "r_and_d_ratio",
               "chain_stage", "headquarters", "sensitivity_level"])
    (hv : alookup rec f = some (VStr s)) :
    apply_generalization rec [f] [(f, L)] =
      .ok (aset rec f
        (if 3 < s.length then
          (if L = 1 then VStr s
           else if L = 2 then VStr (maskHalf s)
           else VStr "*")
         else VStr s)) ∧
    alookup (aset rec f
        (if 3 < s.length then
          (if L = 1 then VStr s
           else if L = 2 then VStr (maskHalf s)
           else VStr "*")
         else VStr s)) f =
      some (if 3 < s.length then
        (if L = 1 then VStr s
         else if L = 2 then VStr (maskHalf s)
         else VStr "*")
       else VStr s) := by
  simp only [List.mem_cons, List.mem_singleton, not_or] at hf
  obtain ⟨h1, h2, h3, h4, h5, h6, _⟩ := hf
  constructor
  · simp [apply_generalization, applyGenGo, hv, genDispatch, h1, h2, h3, h4, h5, h6,
      alookup, defaultGeneralize]
  · exact alookup_aset _ _ _

/-- C8 amended witness: a 16-character generic string at level 2 is
half-masked. -/
theorem C8_generic_string_amended_witness :
    apply_generalization [("company_name", VStr "Acme Corporation")] ["company_name"]
        [("company_name", 2)] =
      .ok (aset [("company_name", VStr "Acme Corporation")] "company_name"
        (if 3 < ("Acme Corporation" : String).length then
          (if 2 = 1 then VStr "Acme Corporation"
           else if 2 = 2 then VStr (maskHalf "Acme Corporation")
           else VStr "*")
         else VStr "Acme Corporation")) ∧
    alookup (aset [("company_name", VStr "Acme Corporation")] "company_name"
        (if 3 < ("Acme Corporation" : String).length then
          (if 2 = 1 then VStr "Acme Corporation"
           else if 2 = 2 then VStr (maskHalf "Acme Corporation")
           else VStr "*")
         else VStr "Acme Corporation")) "company_name" =
      some (if 3 < ("Acme Corporation" : String).length then
        (if 2 = 1 then VStr "Acme Corporation"
         else if 2 = 2 then VStr (maskHalf "Acme Corporation")
         else VStr "*")
       else VStr "Acme Corporation") :=
  C8_generic_string_amended "company_name" "Acme Corporation"
    [("company_name", VStr "Acme Corporation")] 2 (by decide) rfl

/-- Assignment to one key leaves the lookup of a different key unchanged. -/
theorem alookup_aset_ne {α : Type} : ∀ (l : List (String × α)) (a k : String) (v : α),
    a ≠ k → alookup (aset l a v) k = alookup l k := by
  intro l
  induction l with
  | nil => intro a k v h; simp [aset, alookup, h]
  | cons p t ih =>
      intro a k v h
      obtain ⟨b, w⟩ := p
      by_cases hb : b = a
      · simp [aset, alookup, hb, h]
      · simp only [aset, hb, if_false]
        by_cases hk : b = k
        · simp [alookup, hk]
        · simp [alookup, hk]
          exact ih a k v h

/-- Folding `aset` over pairs whose keys avoid `k` leaves `k`'s lookup
unchanged. -/
theorem foldl_aset_notmem {α β : Type} (f : β → α) :
    ∀ (custom : List (String × β)) (base : List (String × α)) (k : String),
      k ∉ custom.map Prod.fst →
      alookup (custom.foldl (fun b q => aset b q.1 (f q.2)) base) k = alookup base k := by
  intro custom
  induction custom with
  | nil => intro base k _; rfl
  | cons q t ih =>
      intro base k hk
      simp only [List.map_cons, List.mem_cons, not_or] at hk
      simp only [List.foldl_cons]
      rw [ih _ k hk.2]
      exact alookup_aset_ne base q.1 k (f q.2) (fun h => hk.1 h.symm)

/-- Folding `aset` over a key-nodup list makes every pair visible in the
final dictionary. -/
theorem foldl_aset_mem {α β : Type} (f : β → α) :
    ∀ (custom : List (String × β)) (base : List (String × α)) (p : String × β),
      (custom.map Prod.fst).Nodup → p ∈ custom →
      alookup (custom.foldl (fun b q => aset b q.1 (f q.2)) base) p.1 = some (f p.2) := by
  intro custom
  induction custom with
  | nil => intro base p _ hp; cases hp
  | cons q t ih =>
      intro base p hnd hp
      simp only [List.map_cons, List.nodup_cons] at hnd
      rcases List.mem_cons.mp hp with h | h
      · subst h
        simp only [List.foldl_cons]
        rw [foldl_aset_notmem f t _ p.1 hnd.1]
        exact alookup_aset base p.1 (f p.2)
      · simp only [List.foldl_cons]
        exact ih _ p hnd.2 h

/-- C9 counterexample: a call with non-empty `custom_bounds` but an empty
dataset returns before the update, so the instance state is unchanged and
the bounds table has no entry for the overridden field. -/
theorem C9_empty_data_cex :
    (privatize_enterprise_data (mkDPService 1 (1/100000)) [] ["x"] "laplace"
        [("x", (1, 2))] (fun _ => 0) (fun _ => 0)).1 = mkDPService 1 (1/100000) ∧
    alookup (mkDPService 1 (1/100000)).field_bounds "x" = none := by
  constructor
  · rfl
  · rfl

/-- C9 amended: on every call with a non-empty dataset, each custom bound
(with distinct field names) is written into the returned instance state:
the bounds table holds the custom pair and the sensitivity table holds
`max - min`, so later calls on that state observe the update. -/
theorem C9_custom_bounds_amended (svc : DPService) (data : List Record)
    (fields : List String) (mech : String) (custom : List (String × ℚ × ℚ))
    (C : ℚ → ℚ) (u : ℕ → ℚ)
    (hd : ¬ data.isEmpty = true) (hnd : (custom.map Prod.fst).Nodup) :
    ∀ p ∈ custom,
      alookup (privatize_enterprise_data svc data fields mech custom C u).1.field_bounds
        p.1 = some p.2 ∧
      alookup (privatize_enterprise_data svc data fields mech custom C u).1.field_sensitivity
        p.1 = some (p.2.2 - p.2.1) := by
  intro p hp
  have hc : ¬ custom.isEmpty = true := by
    cases custom with
    | nil => cases hp
    | cons q t => simp
  have h1 : (privatize_enterprise_data svc data fields mech custom C u).1 =
      updateBounds svc custom := by
    unfold privatize_enterprise_data
    simp only [hd, if_false]
    cases hl : privLoop (if custom.isEmpty then svc else updateBounds svc custom)
        fields mech C u data 0 with
    | error e => simp [hl, hc]
    | ok r => simp [hl, hc]
  rw [h1]
  constructor
  · show alookup (custom.foldl (fun b q => aset b q.1 q.2) svc.field_bounds) p.1 = some p.2
    exact foldl_aset_mem (fun x => x) custom _ p hnd hp
  · show alookup (custom.foldl (fun s q => aset s q.1 (q.2.2 - q.2.1))
        svc.field_sensitivity) p.1 = some (p.2.2 - p.2.1)
    exact foldl_aset_mem (fun b => b.2 - b.1) custom _ p hnd hp

/-- C9 amended witness: with one record and the custom bound
`("y", (2, 5))`, the returned state maps `y` to bounds `(2, 5)` and
sensitivity `3`. -/
theorem C9_custom_bounds_amended_witness :
    alookup (privatize_enterprise_data (mkDPService 1 (1/100000)) [[("x", VNum 1)]]
        [] "laplace" [("y", (2, 5))] (fun _ => 0) (fun _ => 0)).1.field_bounds
      "y" = some (2, 5) ∧
    alookup (privatize_enterprise_data (mkDPService 1 (1/100000)) [[("x", VNum 1)]]
        [] "laplace" [("y", (2, 5))] (fun _ => 0) (fun _ => 0)).1.field_sensitivity
      "y" = some 3 := by
  have h := C9_custom_bounds_amended (mkDPService 1 (1/100000)) [[("x", VNum 1)]]
    [] "laplace" [("y", (2, 5))] (fun _ => 0) (fun _ => 0) (by decide) (by decide)
    ("y", (2, 5)) (by decide)
  refine ⟨h.1, ?_⟩
  have h2 := h.2
  norm_num at h2
  exact h2

/-- The Python rounding is within one half of its argument. -/
theorem pyRound_close (q : ℚ) : q - 1/2 ≤ (pyRound q : ℚ) ∧ (pyRound q : ℚ) ≤ q + 1/2 := by
  have hf : (ratFloor q : ℚ) ≤ q := by
    rw [ratFloor_eq_floor]; exact_mod_cast Int.floor_le q
  have hf2 : q < (ratFloor q : ℚ) + 1 := by
    rw [ratFloor_eq_floor]; exact_mod_cast Int.lt_floor_add_one q
  unfold pyRound
  split_ifs with h1 h2 h3 <;> constructor <;> push_cast <;> linarith

/-- Rounding to 4 decimals moves a rational by at most `1/20000`. -/
theorem roundTo4_close (q : ℚ) : q - 1/20000 ≤ roundTo4 q ∧ roundTo4 q ≤ q + 1/20000 := by
  obtain ⟨h1, h2⟩ := pyRound_close (q * 10000)
  unfold roundTo4
  constructor <;> linarith

/-- Clipping into `[lo, hi]` and then rounding to 4 decimals lands within
`1/20000` of the interval. -/
theorem clip_round_bounds (lo hi x : ℚ) (hlh : lo ≤ hi) :
    lo - 1/20000 ≤ roundTo4 (max lo (min hi x)) ∧
    roundTo4 (max lo (min hi x)) ≤ hi + 1/20000 := by
  obtain ⟨r1, r2⟩ := roundTo4_close (max lo (min hi x))
  have hx1 : lo ≤ max lo (min hi x) := le_max_left _ _
  have hx2 : max lo (min hi x) ≤ hi := max_le hlh (min_le_left _ _)
  constructor <;> linarith

/-- Every entry of the percentile noise loop stays within `1/20000` of the
declared bounds. -/
theorem percNoise_mem_bounds (svc : DPService) (field mech : String) (sens : ℚ)
    (C : ℚ → ℚ) (u : ℕ → ℚ) (lo hi : ℚ)
    (hb : alookup svc.field_bounds field = some (lo, hi)) (hlh : lo ≤ hi) :
    ∀ (i : ℕ) (l : List (ℚ × ℚ)) (pv : ℚ × ℚ),
      pv ∈ percNoise svc field mech sens C u i l →
      lo - 1/20000 ≤ pv.2 ∧ pv.2 ≤ hi + 1/20000 := by
  intro i l
  induction l generalizing i with
  | nil => intro pv h; cases h
  | cons p t ih =>
      intro pv h
      obtain ⟨pp, tv⟩ := p
      simp only [percNoise, hb] at h
      rcases List.mem_cons.mp h with h | h
      · subst h
        exact clip_round_bounds lo hi _ hlh
      · exact ih (i + 1) pv h

set_option maxHeartbeats 1600000 in
/-- C7 counterexample: with declared bounds `(0, 2/3)` on the field `x`,
`query_percentile` returns `0.6667`, which lies strictly above the upper
bound, because the 4-decimal rounding happens after the clipping. -/
theorem C7_percentile_rounding_cex :
    query_percentile ⟨1, 1, [("x", (0, 2/3))], [("x", 2/3)]⟩
        [[("x", VNum (2/3))]] "x" [50] "laplace" (fun _ => 0) (fun _ => 1) =
      .ok ([(50, 6667/10000)], some ⟨"x", [50], 1, "laplace", 1⟩) ∧
    ¬ ((6667 : ℚ)/10000 ≤ 2/3) := by
  have h1 : mechNoise ⟨1, 1, [("x", (0, 2/3))], [("x", 2/3)]⟩ "laplace"
      (fun _ => 0) (2/3) (2/3) 1 = 4/3 := by
    norm_num [mechNoise, laplace_mechanism, pyOr]
  constructor
  · norm_num [query_percentile, extractFloats, fieldValues, pyFloatExc, mapExcept, sortByLe,
      insertLe, dedupFirst, dedupGo, truncQ, ratFloor, pyIndex, percNoise, h1,
      pyOr, roundTo4, pyRound, alookup, maxQ, minQ]
  · norm_num

/-- C7 amended: with declared bounds `(min, max)` for the field (with
`min <= max`), every successfully returned `query_average` result lies in
`[min, max]`; every returned `query_percentile` value lies in
`[min - 1/20000, max + 1/20000]` — the clipped value is exact, but the
final 4-decimal rounding can overshoot the bounds by up to half of
`10^-4` (and does not when the bounds are multiples of `10^-4`, as the
default table's are). -/
theorem C7_clipping_amended (svc : DPService) (data : List Record) (field : String)
    (filt : List (String × Value)) (percentiles : List ℚ) (mech : String)
    (C : ℚ → ℚ) (u1 : ℚ) (u : ℕ → ℚ) (lo hi : ℚ)
    (hb : alookup svc.field_bounds field = some (lo, hi)) (hlh : lo ≤ hi) :
    (∀ (r : ℚ) (info : AvgInfo),
        query_average svc data field filt mech C u1 = .ok (r, some info) →
        lo ≤ r ∧ r ≤ hi) ∧
    (∀ (out : List (ℚ × ℚ)) (info : PercInfo),
        query_percentile svc data field percentiles mech C u = .ok (out, some info) →
        ∀ pv ∈ out, lo - 1/20000 ≤ pv.2 ∧ pv.2 ≤ hi + 1/20000) := by
  constructor
  · intro r info h
    simp only [query_average] at h
    rw [hb] at h
    split at h
    · simp at h
    · split at h
      · simp at h
      · simp only [Except.ok.injEq, Prod.mk.injEq] at h
        rw [← h.1]
        exact ⟨le_max_left _ _, max_le hlh (min_le_left _ _)⟩
  · intro out info h
    simp only [query_percentile] at h
    split at h
    · simp at h
    · split at h
      · simp at h
      · split at h
        · simp at h
        · next truePs heq =>
            simp only [Except.ok.injEq, Prod.mk.injEq] at h
            intro pv hpv
            rw [← h.1] at hpv
            exact percNoise_mem_bounds svc field mech _ C u lo hi hb hlh 0 truePs pv hpv

set_option maxHeartbeats 1600000 in
/-- C7 amended witness: on a concrete one-record dataset with zero noise the
average result 0 lies within the declared bounds `(0, 1000)` of
`revenue_2023` and the percentile value 0 lies within the slack interval. -/
theorem C7_clipping_amended_witness :
    ((0:ℚ) ≤ 0 ∧ (0:ℚ) ≤ 1000) ∧
    ((0:ℚ) - 1/20000 ≤ 0 ∧ (0:ℚ) ≤ 1000 + 1/20000) := by
  have thm := C7_clipping_amended (mkDPService 1 (1/100000)) [[("revenue_2023", VNum 0)]]
    "revenue_2023" [] [50] "laplace" (fun _ => 0) 0 (fun _ => 0) 0 1000 rfl (by norm_num)
  have hm0 : mechNoise (mkDPService 1 (1/100000)) "laplace" (fun _ => 0) 0 1000 0 = 0 := by
    norm_num [mechNoise, laplace_mechanism, pyOr, mkDPService]
  have hA : query_average (mkDPService 1 (1/100000)) [[("revenue_2023", VNum 0)]]
      "revenue_2023" [] "laplace" (fun _ => 0) 0 =
      .ok (0, some ⟨"revenue_2023", 0, 0, 1, "laplace", 1, 1000⟩) := by
    norm_num [query_average, applyFilter, extractFloats, fieldValues, pyFloatExc,
      mapExcept, mkDPService, alookup, sumQ, maxQ, minQ, mechNoise, laplace_mechanism,
      pyOr, roundTo4, pyRound, ratFloor]
  have hP : query_percentile (mkDPService 1 (1/100000)) [[("revenue_2023", VNum 0)]]
      "revenue_2023" [50] "laplace" (fun _ => 0) (fun _ => 0) =
      .ok ([(50, 0)], some ⟨"revenue_2023", [50], 1, "laplace", 1⟩) := by
    norm_num [query_percentile, extractFloats, fieldValues, pyFloatExc, mapExcept,
      sortByLe, insertLe, dedupFirst, dedupGo, truncQ, ratFloor, pyIndex, percNoise,
      mkDPService, alookup, maxQ, minQ, mechNoise, laplace_mechanism, pyOr, roundTo4,
      pyRound]
  exact ⟨thm.1 0 ⟨"revenue_2023", 0, 0, 1, "laplace", 1, 1000⟩ hA,
         thm.2 [(50, 0)] ⟨"revenue_2023", [50], 1, "laplace", 1⟩ hP (50, 0) (by simp)⟩

/-- The star-proportion loss is strictly positive and at most 1. -/
theorem starLoss_pos (a : String) : 0 < starLoss a ∧ starLoss a ≤ 1 := by
  have hle : (a.toList.filter (fun c => c == '*')).length ≤ a.length := by
    have h1 : a.toList.length = a.length := rfl
    rw [← h1]
    exact List.length_filter_le _ _
  by_cases h : 0 < (a.toList.filter (fun c => c == '*')).length
  · have hlen : 0 < a.length := lt_of_lt_of_le h hle
    constructor
    · simp only [starLoss, h, if_pos]
      exact div_pos (by exact_mod_cast h) (by exact_mod_cast hlen)
    · simp only [starLoss, h, if_pos]
      rw [div_le_one (by exact_mod_cast hlen)]
      exact_mod_cast hle
  · have he : starLoss a = 1 := by
      simp only [starLoss]
      rw [if_neg h]
    rw [he]
    norm_num

/-- Every spread stored by `_get_global_ranges` is strictly positive. -/
theorem ranges_pos (data : List Record) :
    ∀ (qis : List String) (p : String × ℚ), p ∈ _get_global_ranges data qis → 0 < p.2 := by
  intro qis
  induction qis with
  | nil => intro p hp; cases hp
  | cons qi t ih =>
      intro p hp
      unfold _get_global_ranges at hp
      cases hc : columnFloats data qi with
      | none => rw [hc] at hp; exact ih p hp
      | some vals =>
          rw [hc] at hp
          cases vals with
          | nil => exact ih p hp
          | cons v vs =>
              rcases List.mem_cons.mp hp with h | h
              · subst h
                unfold rangeOf
                split_ifs with hd
                · exact hd
                · norm_num
              · exact ih p h

/-- Per-cell loss is within `[0, 1]` and vanishes exactly on unchanged
stringified values, provided the ranges are positive. -/
theorem cellLoss_facts (ranges : List (String × ℚ))
    (hr : ∀ p ∈ ranges, 0 < p.2) (qi : String) (o a : Value) :
    0 ≤ cellLoss ranges qi o a ∧ cellLoss ranges qi o a ≤ 1 ∧
    (cellLoss ranges qi o a = 0 ↔ pyStr o = pyStr a) := by
  by_cases heq : pyStr o = pyStr a
  · simp [cellLoss, heq]
  · have pack : ∀ x : ℚ, cellLoss ranges qi o a = x → 0 < x → x ≤ 1 →
        (0 ≤ cellLoss ranges qi o a ∧ cellLoss ranges qi o a ≤ 1 ∧
          (cellLoss ranges qi o a = 0 ↔ pyStr o = pyStr a)) := by
      intro x he h1 h2
      rw [he]
      refine ⟨le_of_lt h1, h2, ?_, ?_⟩
      · intro h0; exact absurd h0 (ne_of_gt h1)
      · intro hc; exact absurd hc heq
    by_cases hmask : pyStr a ∈ maskSentinels
    · refine pack 1 ?_ one_pos le_rfl
      unfold cellLoss
      rw [if_neg heq, if_pos hmask]
    · cases hrg : alookup ranges qi with
      | none =>
          obtain ⟨s1, s2⟩ := starLoss_pos (pyStr a)
          refine pack (starLoss (pyStr a)) ?_ s1 s2
          unfold cellLoss
          rw [if_neg heq, if_neg hmask, hrg]
      | some rng =>
          have hpos : 0 < rng := hr (qi, rng) (alookup_mem _ _ _ hrg)
          by_cases hw : 0 < _parse_interval_width (pyStr a)
          · refine pack (min (_parse_interval_width (pyStr a) / rng) 1) ?_
              (lt_min (div_pos hw hpos) one_pos) (min_le_right _ _)
            unfold cellLoss
            rw [if_neg heq, if_neg hmask, hrg]
            show (if 0 < _parse_interval_width (pyStr a) then
                min (_parse_interval_width (pyStr a) / rng) 1
              else starLoss (pyStr a)) = _
            rw [if_pos hw]
          · obtain ⟨s1, s2⟩ := starLoss_pos (pyStr a)
            refine pack (starLoss (pyStr a)) ?_ s1 s2
            unfold cellLoss
            rw [if_neg heq, if_neg hmask, hrg]
            show (if 0 < _parse_interval_width (pyStr a) then
                min (_parse_interval_width (pyStr a) / rng) 1
              else starLoss (pyStr a)) = _
            rw [if_neg hw]

/-- The inner cell loop keeps `0 <= loss <= cells`. -/
theorem cellFold_inv (ranges : List (String × ℚ))
    (hr : ∀ p ∈ ranges, 0 < p.2) (o a : Record) :
    ∀ (qis : List String) (acc : ℚ × ℕ), 0 ≤ acc.1 → acc.1 ≤ (acc.2 : ℚ) →
      0 ≤ (cellFold ranges o a qis acc).1 ∧
      (cellFold ranges o a qis acc).1 ≤ ((cellFold ranges o a qis acc).2 : ℚ) := by
  intro qis
  induction qis with
  | nil => intro acc h1 h2; exact ⟨h1, h2⟩
  | cons qi t ih =>
      intro acc h1 h2
      unfold cellFold
      cases ho : alookup o qi with
      | none => exact ih acc h1 h2
      | some ov =>
          cases ha : alookup a qi with
          | none => exact ih acc h1 h2
          | some av =>
              obtain ⟨c1, c2, _⟩ := cellLoss_facts ranges hr qi ov av
              refine ih (acc.1 + cellLoss ranges qi ov av, acc.2 + 1) ?_ ?_
              · exact add_nonneg h1 c1
              · push_cast
                linarith

/-- The outer record loop keeps `0 <= loss <= cells`. -/
theorem rowFold_inv (ranges : List (String × ℚ))
    (hr : ∀ p ∈ ranges, 0 < p.2) (qis : List String) :
    ∀ (pairs : List (Record × Record)) (acc : ℚ × ℕ), 0 ≤ acc.1 → acc.1 ≤ (acc.2 : ℚ) →
      0 ≤ (rowFold ranges qis pairs acc).1 ∧
      (rowFold ranges qis pairs acc).1 ≤ ((rowFold ranges qis pairs acc).2 : ℚ) := by
  intro pairs
  induction pairs with
  | nil => intro acc h1 h2; exact ⟨h1, h2⟩
  | cons p t ih =>
      intro acc h1 h2
      obtain ⟨o, a⟩ := p
      unfold rowFold
      obtain ⟨f1, f2⟩ := cellFold_inv ranges hr o a qis acc h1 h2
      exact ih _ f1 f2

/-- C5: per-cell information loss lies in `[0, 1]` and is zero exactly when
the stringified anonymized cell equals the stringified original cell; the
overall score equals total loss over total cells (0 when there are no
cells, also on the empty-input early return) and therefore lies in
`[0, 1]` as well. -/
theorem C5_information_loss_bounds (od ad : List Record) (qis : List String)
    (qi : String) (o a : Value) :
    0 ≤ cellLoss (_get_global_ranges od qis) qi o a ∧
    cellLoss (_get_global_ranges od qis) qi o a ≤ 1 ∧
    (cellLoss (_get_global_ranges od qis) qi o a = 0 ↔ pyStr o = pyStr a) ∧
    0 ≤ compute_information_loss od ad qis ∧
    compute_information_loss od ad qis ≤ 1 ∧
    compute_information_loss od ad qis =
      (if od.isEmpty ∨ ad.isEmpty then 0
       else if 0 < (infoLossTotals od ad qis).2 then
         (infoLossTotals od ad qis).1 / ((infoLossTotals od ad qis).2 : ℚ)
       else 0) := by
  have hr := ranges_pos od qis
  obtain ⟨c1, c2, c3⟩ := cellLoss_facts _ hr qi o a
  refine ⟨c1, c2, c3, ?_, ?_, ?_⟩
  · unfold compute_information_loss
    split_ifs with h1 h2
    · exact le_rfl
    · obtain ⟨f1, f2⟩ := rowFold_inv _ hr qis (od.zip ad) (0, 0) le_rfl (by norm_num)
      exact div_nonneg f1 (by exact_mod_cast Nat.zero_le _)
    · exact le_rfl
  · unfold compute_information_loss
    split_ifs with h1 h2
    · norm_num
    · obtain ⟨f1, f2⟩ := rowFold_inv _ hr qis (od.zip ad) (0, 0) le_rfl (by norm_num)
      rw [div_le_one (by exact_mod_cast h2)]
      exact f2
    · norm_num
  · unfold compute_information_loss
    rfl
/-- Label coarsening from revenue level 1 to level 2. -/
def revMap12 : String → String := fun l =>
  if l = "1亿以下" ∨ l = "1-5亿" ∨ l = "5-10亿" then "10亿以下"
  else if l = "10-50亿" then "10-50亿"
  else if l = "50-100亿" then "50-100亿"
  else if l = "100-500亿" ∨ l = "500亿以上" then "100亿以上"
  else "未知"

/-- Label coarsening from revenue level 2 to level 3. -/
def revMap23 : String → String := fun l =>
  if l = "10亿以下" ∨ l = "10-50亿" then "50亿以下"
  else if l = "50-100亿" then "50-100亿"
  else if l = "100亿以上" then "100亿以上"
  else "未知"

/-- The level-2 revenue bin of a number is determined by its level-1 bin. -/
theorem genRevQ12 (x : ℚ) : genRevQ x 2 = revMap12 (genRevQ x 1) := by
  rcases lt_or_le x 0 with h0 | h0
  · simp [genRevQ, revBins1, revBins2, findBin, revMap12, show ¬((0:ℚ) ≤ x) by linarith, show ¬((1:ℚ) ≤ x) by linarith, show ¬((5:ℚ) ≤ x) by linarith, show ¬((10:ℚ) ≤ x) by linarith, show ¬((50:ℚ) ≤ x) by linarith, show ¬((100:ℚ) ≤ x) by linarith, show ¬((500:ℚ) ≤ x) by linarith, show x < 1 by linarith, show x < 5 by linarith, show x < 10 by linarith, show x < 50 by linarith, show x < 100 by linarith, show x < 500 by linarith]
  ·
    rcases lt_or_le x 1 with h1 | h1
    · simp [genRevQ, revBins1, revBins2, findBin, revMap12, show (0:ℚ) ≤ x by linarith, show ¬((1:ℚ) ≤ x) by linarith, show ¬((5:ℚ) ≤ x) by linarith, show ¬((10:ℚ) ≤ x) by linarith, show ¬((50:ℚ) ≤ x) by linarith, show ¬((100:ℚ) ≤ x) by linarith, show ¬((500:ℚ) ≤ x) by linarith, show x < 1 by linarith, show x < 5 by linarith, show x < 10 by linarith, show x < 50 by linarith, show x < 100 by linarith, show x < 500 by linarith]
    ·
      rcases lt_or_le x 5 with h2 | h2
      · simp [genRevQ, revBins1, revBins2, findBin, revMap12, show (0:ℚ) ≤ x by linarith, show (1:ℚ) ≤ x by linarith, show ¬((5:ℚ) ≤ x) by linarith, show ¬((10:ℚ) ≤ x) by linarith, show ¬((50:ℚ) ≤ x) by linarith, show ¬((100:ℚ) ≤ x) by linarith, show ¬((500:ℚ) ≤ x) by linarith, show ¬(x < 1) by linarith, show x < 5 by linarith, show x < 10 by linarith, show x < 50 by linarith, show x < 100 by linarith, show x < 500 by linarith]
      ·
        rcases lt_or_le x 10 with h3 | h3
        · simp [genRevQ, revBins1, revBins2, findBin, revMap12, show (0:ℚ) ≤ x by linarith, show (1:ℚ) ≤ x by linarith, show (5:ℚ) ≤ x by linarith, show ¬((10:ℚ) ≤ x) by linarith, show ¬((50:ℚ) ≤ x) by linarith, show ¬((100:ℚ) ≤ x) by linarith, show ¬((500:ℚ) ≤ x) by linarith, show ¬(x < 1) by linarith, show ¬(x < 5) by linarith, show x < 10 by linarith, show x < 50 by linarith, show x < 100 by linarith, show x < 500 by linarith]
        ·
          rcases lt_or_le x 50 with h4 | h4
          · simp [genRevQ, revBins1, revBins2, findBin, revMap12, show (0:ℚ) ≤ x by linarith, show (1:ℚ) ≤ x by linarith, show (5:ℚ) ≤ x by linarith, show (10:ℚ) ≤ x by linarith, show ¬((50:ℚ) ≤ x) by linarith, show ¬((100:ℚ) ≤ x) by linarith, show ¬((500:ℚ) ≤ x) by linarith, show ¬(x < 1) by linarith, show ¬(x < 5) by linarith, show ¬(x < 10) by linarith, show x < 50 by linarith, show x < 100 by linarith, show x < 500 by linarith]
          ·
            rcases lt_or_le x 100 with h5 | h5
            · simp [genRevQ, revBins1, revBins2, findBin, revMap12, show (0:ℚ) ≤ x by linarith, show (1:ℚ) ≤ x by linarith, show (5:ℚ) ≤ x by linarith, show (10:ℚ) ≤ x by linarith, show (50:ℚ) ≤ x by linarith, show ¬((100:ℚ) ≤ x) by linarith, show ¬((500:ℚ) ≤ x) by linarith, show ¬(x < 1) by linarith, show ¬(x < 5) by linarith, show ¬(x < 10) by linarith, show ¬(x < 50) by linarith, show x < 100 by linarith, show x < 500 by linarith]
            ·
              rcases lt_or_le x 500 with h6 | h6
              · simp [genRevQ, revBins1, revBins2, findBin, revMap12, show (0:ℚ) ≤ x by linarith, show (1:ℚ) ≤ x by linarith, show (5:ℚ) ≤ x by linarith, show (10:ℚ) ≤ x by linarith, show (50:ℚ) ≤ x by linarith, show (100:ℚ) ≤ x by linarith, show ¬((500:ℚ) ≤ x) by linarith, show ¬(x < 1) by linarith, show ¬(x < 5) by linarith, show ¬(x < 10) by linarith, show ¬(x < 50) by linarith, show ¬(x < 100) by linarith, show x < 500 by linarith]
              ·
                simp [genRevQ, revBins1, revBins2, findBin, revMap12, show (0:ℚ) ≤ x by linarith, show (1:ℚ) ≤ x by linarith, show (5:ℚ) ≤ x by linarith, show (10:ℚ) ≤ x by linarith, show (50:ℚ) ≤ x by linarith, show (100:ℚ) ≤ x by linarith, show (500:ℚ) ≤ x by linarith, show ¬(x < 1) by linarith, show ¬(x < 5) by linarith, show ¬(x < 10) by linarith, show ¬(x < 50) by linarith, show ¬(x < 100) by linarith, show ¬(x < 500) by linarith]

/-- The level-3 revenue bin of a number is determined by its level-2 bin. -/
theorem genRevQ23 (x : ℚ) : genRevQ x 3 = revMap23 (genRevQ x 2) := by
  rcases lt_or_le x 0 with h0 | h0
  · simp [genRevQ, revBins2, revBins3, findBin, revMap23, show ¬((0:ℚ) ≤ x) by linarith, show ¬((10:ℚ) ≤ x) by linarith, show ¬((50:ℚ) ≤ x) by linarith, show ¬((100:ℚ) ≤ x) by linarith, show x < 10 by linarith, show x < 50 by linarith, show x < 100 by linarith]
  ·
    rcases lt_or_le x 10 with h1 | h1
    · simp [genRevQ, revBins2, revBins3, findBin, revMap23, show (0:ℚ) ≤ x by linarith, show ¬((10:ℚ) ≤ x) by linarith, show ¬((50:ℚ) ≤ x) by linarith, show ¬((100:ℚ) ≤ x) by linarith, show x < 10 by linarith, show x < 50 by linarith, show x < 100 by linarith]
    ·
      rcases lt_or_le x 50 with h2 | h2
      · simp [genRevQ, revBins2, revBins3, findBin, revMap23, show (0:ℚ) ≤ x by linarith, show (10:ℚ) ≤ x by linarith, show ¬((50:ℚ) ≤ x) by linarith, show ¬((100:ℚ) ≤ x) by linarith, show ¬(x < 10) by linarith, show x < 50 by linarith, show x < 100 by linarith]
      ·
        rcases lt_or_le x 100 with h3 | h3
        · simp [genRevQ, revBins2, revBins3, findBin, revMap23, show (0:ℚ) ≤ x by linarith, show (10:ℚ) ≤ x by linarith, show (50:ℚ) ≤ x by linarith, show ¬((100:ℚ) ≤ x) by linarith, show ¬(x < 10) by linarith, show ¬(x < 50) by linarith, show x < 100 by linarith]
        ·
          simp [genRevQ, revBins2, revBins3, findBin, revMap23, show (0:ℚ) ≤ x by linarith, show (10:ℚ) ≤ x by linarith, show (50:ℚ) ≤ x by linarith, show (100:ℚ) ≤ x by linarith, show ¬(x < 10) by linarith, show ¬(x < 50) by linarith, show ¬(x < 100) by linarith]

/-- Label coarsening from market-share level 1 to level 2. -/
def msMap12 : String → String := fun l =>
  if l = "1%以下" ∨ l = "1-5%" then "5%以下"
  else if l = "5-10%" ∨ l = "10-20%" then "5-20%"
  else if l = "20-50%" then "20-50%"
  else if l = "50%以上" then "50%以上"
  else "未知"

/-- The level-2 market-share bin of a number is determined by its level-1 bin. -/
theorem genMSQ12 (x : ℚ) : genMSQ x 2 = msMap12 (genMSQ x 1) := by
  rcases lt_or_le x 1 with h0 | h0
  · simp [genMSQ, msMap12, show x < 1 by linarith, show x < 5 by linarith, show x < 10 by linarith, show x < 20 by linarith, show x < 50 by linarith]
  ·
    rcases lt_or_le x 5 with h1 | h1
    · simp [genMSQ, msMap12, show ¬(x < 1) by linarith, show x < 5 by linarith, show x < 10 by linarith, show x < 20 by linarith, show x < 50 by linarith]
    ·
      rcases lt_or_le x 10 with h2 | h2
      · simp [genMSQ, msMap12, show ¬(x < 1) by linarith, show ¬(x < 5) by linarith, show x < 10 by linarith, show x < 20 by linarith, show x < 50 by linarith]
      ·
        rcases lt_or_le x 20 with h3 | h3
        · simp [genMSQ, msMap12, show ¬(x < 1) by linarith, show ¬(x < 5) by linarith, show ¬(x < 10) by linarith, show x < 20 by linarith, show x < 50 by linarith]
        ·
          rcases lt_or_le x 50 with h4 | h4
          · simp [genMSQ, msMap12, show ¬(x < 1) by linarith, show ¬(x < 5) by linarith, show ¬(x < 10) by linarith, show ¬(x < 20) by linarith, show x < 50 by linarith]
          ·
            simp [genMSQ, msMap12, show ¬(x < 1) by linarith, show ¬(x < 5) by linarith, show ¬(x < 10) by linarith, show ¬(x < 20) by linarith, show ¬(x < 50) by linarith]

/-- Label coarsening from R&D-ratio level 1 to level 2. -/
def rdMap12 : String → String := fun l =>
  if l = "低投入(5%以下)" ∨ l = "中等投入(5-10%)" then "中低投入(10%以下)"
  else if l = "较高投入(10-15%)" ∨ l = "高投入(15%以上)" then "中高投入(10%以上)"
  else "未知"

/-- The level-2 R&D bin of a number is determined by its level-1 bin. -/
theorem genRDQ12 (x : ℚ) : genRDQ x 2 = rdMap12 (genRDQ x 1) := by
  rcases lt_or_le x 5 with h0 | h0
  · simp [genRDQ, rdMap12, show x < 5 by linarith, show x < 10 by linarith, show x < 15 by linarith]
  ·
    rcases lt_or_le x 10 with h1 | h1
    · simp [genRDQ, rdMap12, show ¬(x < 5) by linarith, show x < 10 by linarith, show x < 15 by linarith]
    ·
      rcases lt_or_le x 15 with h2 | h2
      · simp [genRDQ, rdMap12, show ¬(x < 5) by linarith, show ¬(x < 10) by linarith, show x < 15 by linarith]
      ·
        simp [genRDQ, rdMap12, show ¬(x < 5) by linarith, show ¬(x < 10) by linarith, show ¬(x < 15) by linarith]

/-- Levels other than 1 and 2 share the coarse revenue bins. -/
theorem genRevQ_else (x : ℚ) (L : ℕ) (h1 : L ≠ 1) (h2 : L ≠ 2) :
    genRevQ x L = genRevQ x 3 := by
  simp [genRevQ, h1, h2]

/-- Levels other than 1 and 2 share the coarse market-share bins. -/
theorem genMSQ_else (x : ℚ) (L : ℕ) (h1 : L ≠ 1) (h2 : L ≠ 2) :
    genMSQ x L = genMSQ x 3 := by
  simp [genMSQ, h1, h2]

/-- Levels other than 1 and 2 share the coarse R&D bins. -/
theorem genRDQ_else (x : ℚ) (L : ℕ) (h1 : L ≠ 1) (h2 : L ≠ 2) :
    genRDQ x L = genRDQ x 3 := by
  simp [genRDQ, h1, h2]

/-- Value-level factoring: revenue level 2 through level 1. -/
theorem revF12 (v : Value) : generalize_revenue v 2 = revMap12 (generalize_revenue v 1) := by
  cases v with
  | VNone => rfl
  | VNum q => exact genRevQ12 q
  | VStr s =>
      cases hp : parseDec s with
      | none => simp [generalize_revenue, pyFloat, hp, revMap12]
      | some q =>
          simp only [generalize_revenue, pyFloat, hp]
          exact genRevQ12 q

/-- Value-level factoring: revenue level 3 through level 2. -/
theorem revF23 (v : Value) : generalize_revenue v 3 = revMap23 (generalize_revenue v 2) := by
  cases v with
  | VNone => rfl
  | VNum q => exact genRevQ23 q
  | VStr s =>
      cases hp : parseDec s with
      | none => simp [generalize_revenue, pyFloat, hp, revMap23]
      | some q =>
          simp only [generalize_revenue, pyFloat, hp]
          exact genRevQ23 q

/-- Revenue generalization is the same at every level other than 1 and 2. -/
theorem revF_else (v : Value) (L : ℕ) (h1 : L ≠ 1) (h2 : L ≠ 2) :
    generalize_revenue v L = generalize_revenue v 3 := by
  cases v with
  | VNone => rfl
  | VNum q => exact genRevQ_else q L h1 h2
  | VStr s =>
      cases hp : parseDec s with
      | none => simp [generalize_revenue, pyFloat, hp]
      | some q =>
          simp only [generalize_revenue, pyFloat, hp]
          exact genRevQ_else q L h1 h2

/-- Value-level factoring: market share level 2 through level 1. -/
theorem msF12 (v : Value) :
    generalize_market_share v 2 = (generalize_market_share v 1).map msMap12 := by
  cases v with
  | VNone => rfl
  | VNum q =>
      show Except.ok (genMSQ q 2) = Except.ok (msMap12 (genMSQ q 1))
      exact congrArg Except.ok (genMSQ12 q)
  | VStr s => rfl

/-- Market-share generalization is the same at every level other than 1 and 2. -/
theorem msF_else (v : Value) (L : ℕ) (h1 : L ≠ 1) (h2 : L ≠ 2) :
    generalize_market_share v L = generalize_market_share v 3 := by
  cases v with
  | VNone => rfl
  | VNum q =>
      show Except.ok (genMSQ q L) = Except.ok (genMSQ q 3)
      exact congrArg Except.ok (genMSQ_else q L h1 h2)
  | VStr s => rfl

/-- Value-level factoring: R&D ratio level 2 through level 1. -/
theorem rdF12 (v : Value) :
    generalize_rd_ratio v 2 = (generalize_rd_ratio v 1).map rdMap12 := by
  cases v with
  | VNone => rfl
  | VNum q =>
      show Except.ok (genRDQ q 2) = Except.ok (rdMap12 (genRDQ q 1))
      exact congrArg Except.ok (genRDQ12 q)
  | VStr s => rfl

/-- R&D generalization is the same at every level other than 1 and 2. -/
theorem rdF_else (v : Value) (L : ℕ) (h1 : L ≠ 1) (h2 : L ≠ 2) :
    generalize_rd_ratio v L = generalize_rd_ratio v 3 := by
  cases v with
  | VNone => rfl
  | VNum q =>
      show Except.ok (genRDQ q L) = Except.ok (genRDQ q 3)
      exact congrArg Except.ok (genRDQ_else q L h1 h2)
  | VStr s => rfl

/-- A non-empty string at chain-stage level 1 is returned verbatim. -/
theorem chain1_str (s : String) (hs : s ≠ "") :
    generalize_chain_stage (VStr s) 1 = .ok (VStr s) := by
  simp [generalize_chain_stage, pyFalsy, hs]

/-- A non-empty string at any chain-stage level other than 1 and 2 becomes
the constant coarse label. -/
theorem chain_coarse (s : String) (hs : s ≠ "") (L : ℕ) (h1 : L ≠ 1) (h2 : L ≠ 2) :
    generalize_chain_stage (VStr s) L = .ok (VStr "产业链企业") := by
  simp [generalize_chain_stage, pyFalsy, hs, h1, h2]

/-- No city of the mapping table maps to the fallback region label. -/
theorem city_not_other (c p : String) (h : alookup city_mapping c = some p) :
    p ≠ "其他地区" := by
  have hall : ∀ pr ∈ city_mapping, pr.2 ≠ "其他地区" := by decide
  exact hall (c, p) (alookup_mem _ _ _ h)

/-- No province resolves to the fallback region label. -/
theorem region_not_other (p : String) : regionOfProv p ≠ "其他地区" := by
  unfold regionOfProv
  cases hf : region_hierarchy.find? (fun r => r.2.contains p) with
  | none => decide
  | some r =>
      have hall : ∀ q ∈ region_hierarchy, q.1 ≠ "其他地区" := by decide
      exact hall r (List.mem_of_find?_eq_some hf)

/-- Headquarters level 1 on a non-empty string returns the trimmed city. -/
theorem hq1_str (s : String) (hs : s ≠ "") :
    generalize_headquarters (VStr s) 1 = .ok s.trim := by
  simp [generalize_headquarters, pyFalsy, hs]

/-- Headquarters level 2 on a non-empty string: province or fallback. -/
theorem hq2_str (s : String) (hs : s ≠ "") :
    generalize_headquarters (VStr s) 2 =
      .ok (match alookup city_mapping s.trim with
           | none => "其他地区"
           | some p => p) := by
  cases hl : alookup city_mapping s.trim <;>
    simp [generalize_headquarters, pyFalsy, hs, hl]

/-- Headquarters level 3 on a non-empty string: macro-region or fallback. -/
theorem hq3_str (s : String) (hs : s ≠ "") :
    generalize_headquarters (VStr s) 3 =
      .ok (match alookup city_mapping s.trim with
           | none => "其他地区"
           | some p => regionOfProv p) := by
  cases hl : alookup city_mapping s.trim <;>
    simp [generalize_headquarters, pyFalsy, hs, hl]

/-- Headquarters levels other than 1, 2, 3 on a non-empty string: the final
sentinel for mapped cities, fallback for unmapped. -/
theorem hq4_str (s : String) (hs : s ≠ "") (L : ℕ)
    (h1 : L ≠ 1) (h2 : L ≠ 2) (h3 : L ≠ 3) :
    generalize_headquarters (VStr s) L =
      .ok (match alookup city_mapping s.trim with
           | none => "其他地区"
           | some _ => "未知") := by
  cases hl : alookup city_mapping s.trim <;>
    simp [generalize_headquarters, pyFalsy, hs, hl, h1, h2, h3]

/-- C2 counterexample: market-share values 7 and 15 share the level-2 bin
`5-20%` but fall into the different level-3 bins `10%以下` and `10-50%`, so
the level-3 category does not contain the level-2 bin. -/
theorem C2_overlapping_bins_cex :
    generalize_market_share (VNum 7) 2 = generalize_market_share (VNum 15) 2 ∧
    generalize_market_share (VNum 7) 3 ≠ generalize_market_share (VNum 15) 3 := by
  constructor
  · norm_num [generalize_market_share, genMSQ]
  · norm_num [generalize_market_share, genMSQ]
    decide

/-- C2 amended: generalization refines monotonically (equal coarse values at
level L imply equal values at L+1) for revenue at every level >= 1; for
market share and R&D ratio at every level >= 1 except from level 2 to 3,
where the bins overlap; and for chain stage and headquarters on non-empty
string values at every level >= 1. -/
theorem C2_monotone_generalization_amended :
    (∀ (v w : Value) (L : ℕ), 1 ≤ L →
        generalize_revenue v L = generalize_revenue w L →
        generalize_revenue v (L + 1) = generalize_revenue w (L + 1)) ∧
    (∀ (v w : Value) (L : ℕ), 1 ≤ L → L ≠ 2 →
        generalize_market_share v L = generalize_market_share w L →
        generalize_market_share v (L + 1) = generalize_market_share w (L + 1)) ∧
    (∀ (v w : Value) (L : ℕ), 1 ≤ L → L ≠ 2 →
        generalize_rd_ratio v L = generalize_rd_ratio w L →
        generalize_rd_ratio v (L + 1) = generalize_rd_ratio w (L + 1)) ∧
    (∀ (s t : String) (L : ℕ), 1 ≤ L → s ≠ "" → t ≠ "" →
        generalize_chain_stage (VStr s) L = generalize_chain_stage (VStr t) L →
        generalize_chain_stage (VStr s) (L + 1) = generalize_chain_stage (VStr t) (L + 1)) ∧
    (∀ (s t : String) (L : ℕ), 1 ≤ L → s ≠ "" → t ≠ "" →
        generalize_headquarters (VStr s) L = generalize_headquarters (VStr t) L →
        generalize_headquarters (VStr s) (L + 1) = generalize_headquarters (VStr t) (L + 1)) := by
  refine ⟨?_, ?_, ?_, ?_, ?_⟩
  · intro v w L hL h
    rcases (by omega : L = 1 ∨ L = 2 ∨ (L ≠ 1 ∧ L ≠ 2 ∧ L + 1 ≠ 1 ∧ L + 1 ≠ 2)) with
      rfl | rfl | ⟨e1, e2, e3, e4⟩
    · rw [revF12 v, revF12 w, h]
    · rw [revF23 v, revF23 w, h]
    · rw [revF_else v (L + 1) e3 e4, revF_else w (L + 1) e3 e4,
        ← revF_else v L e1 e2, ← revF_else w L e1 e2, h]
  · intro v w L hL hL2 h
    rcases (by omega : L = 1 ∨ (L ≠ 1 ∧ L ≠ 2 ∧ L + 1 ≠ 1 ∧ L + 1 ≠ 2)) with
      rfl | ⟨e1, e2, e3, e4⟩
    · rw [msF12 v, msF12 w, h]
    · rw [msF_else v (L + 1) e3 e4, msF_else w (L + 1) e3 e4,
        ← msF_else v L e1 e2, ← msF_else w L e1 e2, h]
  · intro v w L hL hL2 h
    rcases (by omega : L = 1 ∨ (L ≠ 1 ∧ L ≠ 2 ∧ L + 1 ≠ 1 ∧ L + 1 ≠ 2)) with
      rfl | ⟨e1, e2, e3, e4⟩
    · rw [rdF12 v, rdF12 w, h]
    · rw [rdF_else v (L + 1) e3 e4, rdF_else w (L + 1) e3 e4,
        ← rdF_else v L e1 e2, ← rdF_else w L e1 e2, h]
  · intro s t L hL hs ht h
    rcases (by omega : L = 1 ∨ 2 ≤ L) with rfl | h2
    · rw [chain1_str s hs, chain1_str t ht] at h
      simp only [Except.ok.injEq, VStr.injEq] at h
      rw [h]
    · rw [chain_coarse s hs (L + 1) (by omega) (by omega),
        chain_coarse t ht (L + 1) (by omega) (by omega)]
  · intro s t L hL hs ht h
    rcases (by omega : L = 1 ∨ L = 2 ∨ L = 3 ∨ 4 ≤ L) with rfl | rfl | rfl | h4
    · rw [hq1_str s hs, hq1_str t ht] at h
      simp only [Except.ok.injEq] at h
      rw [hq2_str s hs, hq2_str t ht, h]
    · rw [hq2_str s hs, hq2_str t ht] at h
      rw [hq3_str s hs, hq3_str t ht]
      cases hls : alookup city_mapping s.trim with
      | none =>
          cases hlt : alookup city_mapping t.trim with
          | none => rfl
          | some p =>
              rw [hls, hlt] at h
              simp only [Except.ok.injEq] at h
              exact absurd h.symm (city_not_other _ p hlt)
      | some p =>
          cases hlt : alookup city_mapping t.trim with
          | none =>
              rw [hls, hlt] at h
              simp only [Except.ok.injEq] at h
              exact absurd h (city_not_other _ p hls)
          | some p2 =>
              rw [hls, hlt] at h
              simp only [Except.ok.injEq] at h
              rw [h]
    · rw [hq3_str s hs, hq3_str t ht] at h
      rw [hq4_str s hs 4 (by omega) (by omega) (by omega),
        hq4_str t ht 4 (by omega) (by omega) (by omega)]
      cases hls : alookup city_mapping s.trim with
      | none =>
          cases hlt : alookup city_mapping t.trim with
          | none => rfl
          | some p =>
              rw [hls, hlt] at h
              simp only [Except.ok.injEq] at h
              exact absurd h.symm (region_not_other p)
      | some p =>
          cases hlt : alookup city_mapping t.trim with
          | none =>
              rw [hls, hlt] at h
              simp only [Except.ok.injEq] at h
              exact absurd h (region_not_other p)
          | some p2 => rfl
    · rw [hq4_str s hs L (by omega) (by omega) (by omega),
        hq4_str t ht L (by omega) (by omega) (by omega)] at h
      rw [hq4_str s hs (L + 1) (by omega) (by omega) (by omega),
        hq4_str t ht (L + 1) (by omega) (by omega) (by omega)]
      exact h

set_option maxRecDepth 2000 in
/-- C2 amended witness: concrete same-bin pairs stay together one level up
for every tag (revenue 2 and 3 at level 1→2, market share and R&D ratio at
level 1→2, chain stage and headquarters at level 2→3). -/
theorem C2_monotone_generalization_amended_witness :
    generalize_revenue (VNum 2) 2 = generalize_revenue (VNum 3) 2 ∧
    generalize_market_share (VNum 2) 2 = generalize_market_share (VNum 3) 2 ∧
    generalize_rd_ratio (VNum 2) 2 = generalize_rd_ratio (VNum 3) 2 ∧
    generalize_chain_stage (VStr "上游-设备") 3 = generalize_chain_stage (VStr "上游-零部件") 3 ∧
    generalize_headquarters (VStr "苏州") 3 = generalize_headquarters (VStr "苏州") 3 := by
  obtain ⟨hrev, hms, hrd, hch, hhq⟩ := C2_monotone_generalization_amended
  refine ⟨hrev (VNum 2) (VNum 3) 1 (by norm_num) ?_,
          hms (VNum 2) (VNum 3) 1 (by norm_num) (by norm_num) ?_,
          hrd (VNum 2) (VNum 3) 1 (by norm_num) (by norm_num) ?_,
          hch "上游-设备" "上游-零部件" 2 (by norm_num) (by decide) (by decide) ?_,
          hhq "苏州" "苏州" 2 (by norm_num) (by decide) (by decide) rfl⟩
  · norm_num [generalize_revenue, pyFloat, genRevQ, revBins1, findBin]
  · norm_num [generalize_market_share, genMSQ]
  · norm_num [generalize_rd_ratio, genRDQ]
  · decide

/-- If `validate_k_anonymity` reports success, every class has at least k
members. -/
theorem validate_k_true (k : ℕ) (eqc : List (List String × List Record))
    (h : (validate_k_anonymity k eqc).1 = true) :
    ∀ c ∈ eqc, k ≤ c.2.length := by
  unfold validate_k_anonymity at h
  by_cases he : eqc.isEmpty
  · simp [he] at h
  · simp only [he, Bool.false_eq_true, if_false] at h
    intro c hc
    have hm : k ≤ minList (eqc.map fun c => c.2.length) := of_decide_eq_true h
    exact le_trans hm (minList_le _ _ (List.mem_map_of_mem _ hc))

/-- C1: whenever `anonymize` returns statistics with `is_k_anonymous = true`,
rebuilding the equivalence classes from the returned records over the same
quasi-identifiers yields only classes of size at least k. -/
theorem C1_k_anonymity_invariant (k : ℕ) (data : List Record) (qis sens : List String)
    (levels0 : List (String × ℕ)) (maxIter : ℕ) (out : List Record) (st : AnonStats)
    (h : anonymize k data qis sens levels0 maxIter = .ok (out, .stats st))
    (hk : st.is_k_anonymous = true) :
    ∀ c ∈ build_equivalence_classes out qis, k ≤ c.2.length := by
  unfold anonymize at h
  cases data with
  | nil => simp at h
  | cons r0 rest =>
      cases hf : qis.find? (fun qi => (alookup r0 qi).isNone) with
      | some qi => simp [hf] at h
      | none =>
          simp only [hf] at h
          split at h
          · simp at h
          · rename_i fd fl it heq
            simp only [Except.ok.injEq, Prod.mk.injEq, AnonResult.stats.injEq] at h
            obtain ⟨hout, hst⟩ := h
            subst hout
            rw [← hst] at hk
            exact validate_k_true k _ hk

set_option maxRecDepth 2000 in
/-- C1 witness: a fully evaluated run of `anonymize` with `k = 1` on a
one-record dataset reports `is_k_anonymous = true`, and its output's only
equivalence class indeed has size at least 1. -/
theorem C1_k_anonymity_invariant_witness :
    (build_equivalence_classes [[("f", VStr "x")]] ["f"]).all
      (fun c => decide (1 ≤ c.2.length)) = true := by
  have h : anonymize 1 [[("f", VStr "x")]] ["f"] [] [] 3 =
      .ok ([[("f", VStr "x")]], .stats ⟨1, 1, 1, 1, 1, 1, 1, true, 0, 0, 1, [("f", 1)]⟩) := by
    with_unfolding_all decide
  have hall := C1_k_anonymity_invariant 1 [[("f", VStr "x")]] ["f"] [] [] 3 [[("f", VStr "x")]]
    ⟨1, 1, 1, 1, 1, 1, 1, true, 0, 0, 1, [("f", 1)]⟩ h rfl
  exact List.all_eq_true.mpr fun c hc => decide_eq_true (hall c hc)
